import Mathlib

/-!
Verification development for the ContractorOS backend (src/backend/main.py).

The Python source is shallowly embedded: strings are modelled as `List Char`,
values parsed from JSON as the inductive `PyJson`, fallible code as
`Option`/`Except`, and module-level mutable state as explicit state passing.
Python specifics modelled here and used throughout:
  - Python `str.strip()` and the regex class `\s` are modelled over the ASCII
    whitespace characters (space, tab, newline, carriage return, vertical tab,
    form feed); the claims only exercise ASCII data.
  - Python `str.lower()` is modelled on ASCII letters.
  - JSON numbers are carried as their literal decimal tokens (`PyJson.jnum`):
    the Python float produced by `json.loads` is represented by the token the
    parser consumed, and `json.dumps` re-emits that token.  This identifies a
    float with its decimal literal and is noted at every use site.
-/

set_option maxRecDepth 4000

/-- Characters of a string literal, the form all embedded functions work on. -/
def chrs (s : String) : List Char := s.data

/-- Backtick, written via its code point to keep it out of the source text. -/
def btick : Char := Char.ofNat 96

/-- Double quote character. -/
def qchar : Char := Char.ofNat 34

/-- Backslash character. -/
def bslash : Char := Char.ofNat 92

/-- Opening brace character. -/
def obrace : Char := Char.ofNat 123

/-- Closing brace character. -/
def cbrace : Char := Char.ofNat 125

/-- Single quote character. -/
def squote : Char := Char.ofNat 39

/-- ASCII model of the whitespace set used by Python `str.strip()` and by the
regex class `\s`. -/
def pySpace (c : Char) : Bool :=
  c = ' ' || c = '\t' || c = '\n' || c = '\r' || c = Char.ofNat 11 || c = Char.ofNat 12

/-- Python `str.lstrip()` (ASCII whitespace model). -/
def pyLStrip (s : List Char) : List Char := s.dropWhile pySpace

/-- Python `str.rstrip()` (ASCII whitespace model). -/
def pyRStrip (s : List Char) : List Char := (s.reverse.dropWhile pySpace).reverse

/-- Python `str.strip()` (ASCII whitespace model). -/
def pyStrip (s : List Char) : List Char := pyRStrip (pyLStrip s)

/-- Python `str.lower()` on one character (ASCII model). -/
def pyLowerChar (c : Char) : Char :=
  if 65 ≤ c.toNat ∧ c.toNat ≤ 90 then Char.ofNat (c.toNat + 32) else c

/-- Python `str.lower()` (ASCII model). -/
def pyLower (s : List Char) : List Char := s.map pyLowerChar

/-- Worker of `pyReplace`: fuel-guarded scan (every step consumes at least
one character when the pattern is non-empty, so the caller's fuel always
suffices and the fuel-exhausted branch is unreachable). -/
def pyReplaceGo (pat rep : List Char) : Nat → List Char → List Char
  | 0, s => s
  | Nat.succ _, [] => []
  | Nat.succ f, c :: t =>
    if pat ≠ [] ∧ pat.isPrefixOf (c :: t) then
      rep ++ pyReplaceGo pat rep f ((c :: t).drop pat.length)
    else
      c :: pyReplaceGo pat rep f t

/-- Python `str.replace(pat, rep)`: every non-overlapping occurrence, scanned
left to right.  All call sites pass a non-empty `pat`. -/
def pyReplace (pat rep s : List Char) : List Char :=
  pyReplaceGo pat rep (s.length + 1) s

/-- Python `str.strip(chars)`: drop the given characters from both ends. -/
def pyStripChars (set : List Char) (s : List Char) : List Char :=
  ((s.dropWhile (set.contains ·)).reverse.dropWhile (set.contains ·)).reverse

/-- Python `str.split(sep)` for a one-character separator. -/
def pySplitChar (sep : Char) : List Char → List (List Char)
  | [] => [[]]
  | c :: t =>
    if c = sep then [] :: pySplitChar sep t
    else
      match pySplitChar sep t with
      | [] => [[c]]
      | h :: r => (c :: h) :: r

/-- Python `sep.join(parts)`. -/
def pyJoin (sep : List Char) : List (List Char) → List Char
  | [] => []
  | [x] => x
  | x :: r => x ++ sep ++ pyJoin sep r

/-- Decimal digit test. -/
def isDig (c : Char) : Bool := 48 ≤ c.toNat && c.toNat ≤ 57

/-- Numeric value of a decimal digit list (most significant first). -/
def digitsVal (l : List Char) : Nat := l.foldl (fun a c => 10 * a + (c.toNat - 48)) 0

/-- Hexadecimal digit value, if any. -/
def hexVal (c : Char) : Option Nat :=
  if 48 ≤ c.toNat ∧ c.toNat ≤ 57 then some (c.toNat - 48)
  else if 97 ≤ c.toNat ∧ c.toNat ≤ 102 then some (c.toNat - 87)
  else if 65 ≤ c.toNat ∧ c.toNat ≤ 70 then some (c.toNat - 55)
  else none

/-- Lowercase hexadecimal digit of a value below 16. -/
def hexDigit (n : Nat) : Char :=
  if n < 10 then Char.ofNat (48 + n) else Char.ofNat (87 + n)

/-- Four lowercase hex digits of a value below 65536 (the `\uXXXX` payload
`json.dumps` emits). -/
def hex4 (n : Nat) : List Char :=
  [hexDigit (n / 4096 % 16), hexDigit (n / 256 % 16), hexDigit (n / 16 % 16), hexDigit (n % 16)]

/-- Values parsed from JSON text.  Numbers are carried as their literal tokens
(see the file comment on the float model). -/
inductive PyJson where
  | jnull : PyJson
  | jbool : Bool → PyJson
  | jnum : List Char → PyJson
  | jstr : List Char → PyJson
  | jarr : List PyJson → PyJson
  | jobj : List (List Char × PyJson) → PyJson

/-- Whitespace skipped by Python `json.loads` between tokens: space, tab,
newline, carriage return. -/
def jsonWs (c : Char) : Bool := c = ' ' || c = '\t' || c = '\n' || c = '\r'

/-- One escape sequence of the `json.loads` string scanner: given the
characters after a backslash, the decoded character and the rest.  The short
escapes and `\uXXXX` are decoded, and a surrogate pair is combined.  A lone
surrogate (which CPython would keep as an unpaired surrogate code unit, a
character Lean strings cannot hold) is rejected; no claim exercises one. -/
def escStep : List Char → Option (Char × List Char)
  | [] => none
  | e :: t2 =>
    if e = qchar then some (qchar, t2)
    else if e = bslash then some (bslash, t2)
    else if e = '/' then some ('/', t2)
    else if e = 'b' then some (Char.ofNat 8, t2)
    else if e = 'f' then some (Char.ofNat 12, t2)
    else if e = 'n' then some ('\n', t2)
    else if e = 'r' then some ('\r', t2)
    else if e = 't' then some ('\t', t2)
    else if e = 'u' then
      match t2 with
      | h1 :: h2 :: h3 :: h4 :: t3 =>
        match hexVal h1, hexVal h2, hexVal h3, hexVal h4 with
        | some a, some b, some cc, some d =>
          let code := 4096 * a + 256 * b + 16 * cc + d
          if 55296 ≤ code ∧ code ≤ 56319 then
            match t3 with
            | l0 :: l1 :: k1 :: k2 :: k3 :: k4 :: t4 =>
              if l0 = bslash ∧ l1 = 'u' then
                match hexVal k1, hexVal k2, hexVal k3, hexVal k4 with
                | some a2, some b2, some c2, some d2 =>
                  let code2 := 4096 * a2 + 256 * b2 + 16 * c2 + d2
                  if 56320 ≤ code2 ∧ code2 ≤ 57343 then
                    some (Char.ofNat (65536 + (code - 55296) * 1024 + (code2 - 56320)), t4)
                  else none
                | _, _, _, _ => none
              else none
            | _ => none
          else if 56320 ≤ code ∧ code ≤ 57343 then none
          else some (Char.ofNat code, t3)
        | _, _, _, _ => none
      | _ => none
    else none

/-- String-body scanner of `json.loads` (after the opening quote), on fuel:
returns the decoded characters and the rest after the closing quote.
Faithful to the strict decoder: raw control characters below 0x20 are
rejected and escapes are decoded by `escStep`.  Every step consumes at least
one character, so fuel equal to the input length always suffices. -/
def parseJStringGo : Nat → List Char → Option (List Char × List Char)
  | 0, _ => none
  | _ + 1, [] => none
  | fuel + 1, c :: t =>
    if c = qchar then some ([], t)
    else if c = bslash then
      match escStep t with
      | none => none
      | some (ch, t2) => (parseJStringGo fuel t2).map (fun p => (ch :: p.1, p.2))
    else if c.toNat < 32 then none
    else (parseJStringGo fuel t).map (fun p => (c :: p.1, p.2))

/-- String-body scanner of `json.loads` (after the opening quote). -/
def parseJString (s : List Char) : Option (List Char × List Char) :=
  parseJStringGo s.length s

/-- Number token scanner of `json.loads` (the `NUMBER_RE` grammar):
optional minus, integer part `0 | [1-9][0-9]*`, optional fraction, optional
exponent.  Returns the token and the rest. -/
def parseJNumber (s : List Char) : Option (List Char × List Char) :=
  let (sign, s1) := match s with
    | c :: t => if c = '-' then ([c], t) else (([] : List Char), s)
    | [] => ([], s)
  match s1 with
  | [] => none
  | c :: t =>
    if ¬ isDig c then none
    else
      let (ipart, s2) :=
        if c = '0' then ([c], t)
        else (c :: t.takeWhile isDig, t.dropWhile isDig)
      let (fpart, s3) := match s2 with
        | d :: u =>
          if d = '.' then
            match u with
            | e :: _ =>
              if isDig e then (d :: u.takeWhile isDig, u.dropWhile isDig)
              else (([] : List Char), s2)
            | [] => (([] : List Char), s2)
          else (([] : List Char), s2)
        | [] => ([], s2)
      let (epart, s4) := match s3 with
        | d :: u =>
          if d = 'e' ∨ d = 'E' then
            let (esign, u2) := match u with
              | g :: v => if g = '+' ∨ g = '-' then ([g], v) else (([] : List Char), u)
              | [] => ([], u)
            match u2 with
            | e :: _ =>
              if isDig e then (d :: esign ++ u2.takeWhile isDig, u2.dropWhile isDig)
              else (([] : List Char), s3)
            | [] => (([] : List Char), s3)
          else (([] : List Char), s3)
        | [] => ([], s3)
      some (sign ++ ipart ++ fpart ++ epart, s4)

/-- Insert a parsed key/value pair with Python dict semantics: an existing key
keeps its position and takes the new value, a new key is appended. -/
def dictInsert (k : List Char) (v : PyJson) :
    List (List Char × PyJson) → List (List Char × PyJson)
  | [] => [(k, v)]
  | (k0, v0) :: r => if k0 = k then (k0, v) :: r else (k0, v0) :: dictInsert k v r

mutual

/-- Value scanner of `json.loads`.  Fuel decreases on every recursive step; the
top-level entry supplies more fuel than any input can consume.  Faithful to
CPython: the constants `NaN`, `Infinity` and `-Infinity` are accepted as
number tokens. -/
def parseJValue : Nat → List Char → Option (PyJson × List Char)
  | 0, _ => none
  | Nat.succ fuel, s0 =>
    let s := s0.dropWhile jsonWs
    match s with
    | [] => none
    | c :: t =>
      if c = qchar then (parseJString t).map (fun p => (PyJson.jstr p.1, p.2))
      else if c = obrace then parseJObj fuel t true []
      else if c = Char.ofNat 91 then parseJArr fuel t true []
      else if (chrs "true").isPrefixOf s then some (PyJson.jbool true, s.drop 4)
      else if (chrs "false").isPrefixOf s then some (PyJson.jbool false, s.drop 5)
      else if (chrs "null").isPrefixOf s then some (PyJson.jnull, s.drop 4)
      else if (chrs "NaN").isPrefixOf s then some (PyJson.jnum (chrs "NaN"), s.drop 3)
      else if (chrs "Infinity").isPrefixOf s then
        some (PyJson.jnum (chrs "Infinity"), s.drop 8)
      else if (chrs "-Infinity").isPrefixOf s then
        some (PyJson.jnum (chrs "-Infinity"), s.drop 9)
      else (parseJNumber s).map (fun p => (PyJson.jnum p.1, p.2))

/-- Object-body scanner (after the opening brace).  `first` is true before the
first member; `acc` collects pairs with dict-update semantics. -/
def parseJObj : Nat → List Char → Bool → List (List Char × PyJson) →
    Option (PyJson × List Char)
  | 0, _, _, _ => none
  | Nat.succ fuel, s0, first, acc =>
    let s := s0.dropWhile jsonWs
    match s with
    | [] => none
    | c :: t =>
      if c = cbrace ∧ first then some (PyJson.jobj acc, t)
      else
        if c = qchar then
          match parseJString t with
          | none => none
          | some (key, r1) =>
            let r2 := r1.dropWhile jsonWs
            match r2 with
            | ':' :: r3 =>
              match parseJValue fuel r3 with
              | none => none
              | some (v, r4) =>
                let r5 := r4.dropWhile jsonWs
                match r5 with
                | ',' :: r6 => parseJObj fuel r6 false (dictInsert key v acc)
                | d :: r7 =>
                  if d = cbrace then some (PyJson.jobj (dictInsert key v acc), r7)
                  else none
                | [] => none
            | _ => none
        else none

/-- Array-body scanner (after the opening bracket). -/
def parseJArr : Nat → List Char → Bool → List PyJson → Option (PyJson × List Char)
  | 0, _, _, _ => none
  | Nat.succ fuel, s0, first, acc =>
    let s := s0.dropWhile jsonWs
    match s with
    | [] => none
    | c :: t =>
      if c = Char.ofNat 93 ∧ first then some (PyJson.jarr acc.reverse, t)
      else
        match parseJValue fuel s with
        | none => none
        | some (v, r1) =>
          let r2 := r1.dropWhile jsonWs
          match r2 with
          | ',' :: r3 => parseJArr fuel r3 false (v :: acc)
          | d :: r4 =>
            if d = Char.ofNat 93 then some (PyJson.jarr (v :: acc).reverse, r4)
            else none
          | [] => none

end

/-- Python `json.loads`: parse the whole text, allowing only trailing
whitespace. -/
def json_loads (s : List Char) : Option PyJson :=
  match parseJValue (2 * s.length + 8) s with
  | none => none
  | some (v, rest) => if rest.dropWhile jsonWs = [] then some v else none

/-- Escape of one character as `json.dumps` (default `ensure_ascii=True`)
writes it: printable ASCII passes through, the short escapes are used where
defined, every other character becomes `\uXXXX` (a surrogate pair above
0xFFFF), with lowercase hex. -/
def dumpsEscapeChar (c : Char) : List Char :=
  if c = qchar then [bslash, qchar]
  else if c = bslash then [bslash, bslash]
  else if c = '\n' then [bslash, 'n']
  else if c = '\r' then [bslash, 'r']
  else if c = '\t' then [bslash, 't']
  else if c = Char.ofNat 8 then [bslash, 'b']
  else if c = Char.ofNat 12 then [bslash, 'f']
  else if 32 ≤ c.toNat ∧ c.toNat ≤ 126 then [c]
  else if c.toNat ≤ 65535 then bslash :: 'u' :: hex4 c.toNat
  else
    let v := c.toNat - 65536
    (bslash :: 'u' :: hex4 (55296 + v / 1024)) ++ (bslash :: 'u' :: hex4 (56320 + v % 1024))

/-- String literal as `json.dumps` writes it, quotes included. -/
def dumpsString (s : List Char) : List Char :=
  qchar :: (s.map dumpsEscapeChar).foldr (· ++ ·) [qchar]

mutual

/-- Python `json.dumps` with its default separators (a comma-space between
items, a colon-space after keys) and `ensure_ascii=True`.  Number tokens are
emitted verbatim (see the file comment on the float model). -/
def json_dumps : PyJson → List Char
  | PyJson.jnull => chrs "null"
  | PyJson.jbool true => chrs "true"
  | PyJson.jbool false => chrs "false"
  | PyJson.jnum tok => tok
  | PyJson.jstr s => dumpsString s
  | PyJson.jarr l => Char.ofNat 91 :: dumpsArr l ++ [Char.ofNat 93]
  | PyJson.jobj l => obrace :: dumpsObj l ++ [cbrace]

/-- Comma-separated array items. -/
def dumpsArr : List PyJson → List Char
  | [] => []
  | [v] => json_dumps v
  | v :: r => json_dumps v ++ ',' :: ' ' :: dumpsArr r

/-- Comma-separated object members. -/
def dumpsObj : List (List Char × PyJson) → List Char
  | [] => []
  | [(k, v)] => dumpsString k ++ ':' :: ' ' :: json_dumps v
  | (k, v) :: r => dumpsString k ++ ':' :: ' ' :: json_dumps v ++ ',' :: ' ' :: dumpsObj r

end

/-- Two lowercase hex digits of a byte value. -/
def hex2 (n : Nat) : List Char := [hexDigit (n / 16 % 16), hexDigit (n % 16)]

/-- Escape of one character inside Python `repr` of a string with quote
character `q`: backslash and the quote are escaped, newline, carriage return
and tab use their short forms, other control characters (and 0x7f) become
`\xhh`.  Printable characters pass through. -/
def pyReprEsc (q c : Char) : List Char :=
  if c = bslash then [bslash, bslash]
  else if c = q then [bslash, q]
  else if c = '\n' then [bslash, 'n']
  else if c = '\r' then [bslash, 'r']
  else if c = '\t' then [bslash, 't']
  else if c.toNat < 32 ∨ c.toNat = 127 then bslash :: 'x' :: hex2 c.toNat
  else [c]

/-- Python `repr` of a string: single quotes, switching to double quotes when
the text holds a single quote but no double quote. -/
def pyReprStr (s : List Char) : List Char :=
  let q := if s.contains squote ∧ ¬ s.contains qchar then qchar else squote
  q :: s.foldr (fun c acc => pyReprEsc q c ++ acc) [q]

mutual

/-- Python `repr` of a value parsed from JSON (numbers by their token, see the
file comment). -/
def pyReprOf : PyJson → List Char
  | PyJson.jnull => chrs "None"
  | PyJson.jbool true => chrs "True"
  | PyJson.jbool false => chrs "False"
  | PyJson.jnum tok => tok
  | PyJson.jstr s => pyReprStr s
  | PyJson.jarr l => Char.ofNat 91 :: pyReprList l ++ [Char.ofNat 93]
  | PyJson.jobj l => obrace :: pyReprFields l ++ [cbrace]

/-- Comma-separated `repr` of list items. -/
def pyReprList : List PyJson → List Char
  | [] => []
  | [v] => pyReprOf v
  | v :: r => pyReprOf v ++ ',' :: ' ' :: pyReprList r

/-- Comma-separated `repr` of dict items. -/
def pyReprFields : List (List Char × PyJson) → List Char
  | [] => []
  | [(k, v)] => pyReprStr k ++ ':' :: ' ' :: pyReprOf v
  | (k, v) :: r => pyReprStr k ++ ':' :: ' ' :: pyReprOf v ++ ',' :: ' ' :: pyReprFields r

end

/-- Python `str()` of a value parsed from JSON: a string is itself, everything
else is its `repr`. -/
def pyStrOf (v : PyJson) : List Char :=
  match v with
  | PyJson.jstr s => s
  | _ => pyReprOf v

/-- Truthiness of a number token: false exactly when the numeric value is
zero, that is when every mantissa digit is `0`. -/
def pyNumTokenZero (tok : List Char) : Bool :=
  if tok = chrs "NaN" ∨ tok = chrs "Infinity" ∨ tok = chrs "-Infinity" then false
  else
    let t := match tok with
      | c :: r => if c = '-' then r else tok
      | [] => tok
    let mant := t.takeWhile (fun c => isDig c || c = '.')
    mant.all (fun c => c = '0' || c = '.')

/-- Python truthiness of a value parsed from JSON. -/
def pyFalsy : PyJson → Bool
  | PyJson.jnull => true
  | PyJson.jbool b => !b
  | PyJson.jnum tok => pyNumTokenZero tok
  | PyJson.jstr s => s.isEmpty
  | PyJson.jarr l => l.isEmpty
  | PyJson.jobj l => l.isEmpty

/-- Pydantic v1 coercion into a `str` field: a string passes, a number or bool
is converted with `str()` (the number by its token, see the file comment),
anything else is a validation error. -/
def pydanticStr (v : PyJson) : Except (List Char) (List Char) :=
  match v with
  | PyJson.jstr s => Except.ok s
  | PyJson.jnum tok => Except.ok tok
  | PyJson.jbool b => Except.ok (chrs (if b then "True" else "False"))
  | _ => Except.error (chrs "str type expected")

/-- Pydantic v1 coercion into an `Optional[str]` field: a missing field or a
JSON null is `None`, otherwise the `str` coercion applies. -/
def pydanticOptStr (o : Option PyJson) : Except (List Char) (Option (List Char)) :=
  match o with
  | none => Except.ok none
  | some PyJson.jnull => Except.ok none
  | some v => (pydanticStr v).map some

/-- Syntactic test for the regex `^\d{4}-\d{2}-\d{2}$` of the date
validators. -/
def isIsoShape (s : List Char) : Bool :=
  match s with
  | [a, b, c, d, e, f, g, h, i, j] =>
    isDig a && isDig b && isDig c && isDig d && e = '-' &&
      isDig f && isDig g && h = '-' && isDig i && isDig j
  | _ => false

/-- Validator `GeneratedProjectDetails._normalize_date` (main.py:194-209):
null stays null; a string is stripped, the placeholders `unknown`, `n/a`,
`tbd`, `unspecified` (case-insensitively) and the empty string become null,
a string matching `^\d{4}-\d{2}-\d{2}$` is kept as stripped, anything else
becomes null; every non-string value becomes null.  The validator is total:
it never raises. -/
def _normalize_date (v : PyJson) : Option (List Char) :=
  match v with
  | PyJson.jstr s =>
    let st := pyStrip s
    if st.isEmpty then none
    else
      let low := pyLower st
      if low = chrs "unknown" ∨ low = chrs "n/a" ∨ low = chrs "tbd" ∨
          low = chrs "unspecified" then none
      else if isIsoShape st then some st
      else none
  | _ => none

/-- Validator `GeneratedProjectDetails._parse_budget` (main.py:180-192):
null and the empty string become null, a number (or bool) passes through
`float()` (token model), a string is cleaned to its digits and dots and
parsed as a float when possible, anything else becomes null. -/
def _parse_budget (v : PyJson) : Option (List Char) :=
  match v with
  | PyJson.jnull => none
  | PyJson.jnum tok => some tok
  | PyJson.jbool b => some (chrs (if b then "1.0" else "0.0"))
  | PyJson.jstr s =>
    if s.isEmpty then none
    else
      let cleaned := s.filter (fun c => isDig c || c = '.')
      if cleaned.isEmpty then none
      else if cleaned.countP (fun c => c = '.') ≤ 1 ∧ cleaned.any isDig then some cleaned
      else none
  | _ => none

/-- Validator `GeneratedProjectDetails._coerce_assumptions` (main.py:211-227):
a list keeps its items as stripped `str()` renderings, dropping the empty
ones; a string is stripped and either split on semicolons or wrapped as a
one-item list; an empty result and every other value become null. -/
def _coerce_assumptions (v : PyJson) : Option (List (List Char)) :=
  match v with
  | PyJson.jarr items =>
    let cleaned := items.filterMap (fun it =>
      let s := pyStrip (pyStrOf it)
      if s.isEmpty then none else some s)
    if cleaned.isEmpty then none else some cleaned
  | PyJson.jstr s =>
    let st := pyStrip s
    if st.isEmpty then none
    else if st.contains ';' then
      let parts := ((pySplitChar ';' st).map pyStrip).filter (fun p => ¬ p.isEmpty)
      if parts.isEmpty then none else some parts
    else some [st]
  | _ => none

/-- The schema `GeneratedProjectDetails` (main.py:168-227), with the float
field carried as its decimal token (see the file comment). -/
structure GeneratedProjectDetails where
  name : List Char
  description : List Char
  address : Option (List Char)
  start_date : Option (List Char)
  end_date : Option (List Char)
  budget_estimate : Option (List Char)
  budget_currency : List Char
  assumptions : Option (List (List Char))
  confidence : Option (List Char)
  additional_notes : Option (List Char)
deriving DecidableEq

/-- Value of a key in a parsed JSON object (first match, as dict lookup). -/
def lookupField : List (List Char × PyJson) → String → Option PyJson
  | [], _ => none
  | (k0, v) :: r, k => if k0 = chrs k then some v else lookupField r k

/-- Construction `GeneratedProjectDetails(**payload)`: required `name` and
`description` with pydantic str coercion, the field validators applied with
`pre=True`, defaults for the missing optional fields, `budget_currency`
defaulting to `USD`, extra keys ignored. -/
def mkGeneratedProjectDetails (fields : List (List Char × PyJson)) :
    Except (List Char) GeneratedProjectDetails := do
  let nameV ← match lookupField fields "name" with
    | none => Except.error (chrs "field required: name")
    | some PyJson.jnull => Except.error (chrs "none is not an allowed value: name")
    | some v => pydanticStr v
  let descV ← match lookupField fields "description" with
    | none => Except.error (chrs "field required: description")
    | some PyJson.jnull => Except.error (chrs "none is not an allowed value: description")
    | some v => pydanticStr v
  let addrV ← pydanticOptStr (lookupField fields "address")
  let sdV := match lookupField fields "start_date" with
    | none => none
    | some v => _normalize_date v
  let edV := match lookupField fields "end_date" with
    | none => none
    | some v => _normalize_date v
  let beV := match lookupField fields "budget_estimate" with
    | none => none
    | some v => _parse_budget v
  let bcV ← match lookupField fields "budget_currency" with
    | none => Except.ok (chrs "USD")
    | some PyJson.jnull => Except.error (chrs "none is not an allowed value: budget_currency")
    | some v => pydanticStr v
  let asmV := match lookupField fields "assumptions" with
    | none => none
    | some v => _coerce_assumptions v
  let confV ← pydanticOptStr (lookupField fields "confidence")
  let notesV ← pydanticOptStr (lookupField fields "additional_notes")
  Except.ok
    { name := nameV, description := descV, address := addrV, start_date := sdV,
      end_date := edV, budget_estimate := beV, budget_currency := bcV,
      assumptions := asmV, confidence := confV, additional_notes := notesV }

/-- Validator `GeneratedScheduleTask._normalize_optional_date`
(main.py:243-253): every falsy value (null, empty or zero) becomes null; a
string is stripped, the placeholders `tbd`, `n/a`, `unknown` and the empty
string become null, a string matching `^\d{4}-\d{2}-\d{2}$` is kept as
stripped; everything else becomes null.  Total: it never raises. -/
def _normalize_optional_date (v : PyJson) : Option (List Char) :=
  if pyFalsy v then none
  else
    match v with
    | PyJson.jstr s =>
      let st := pyStrip s
      if st.isEmpty ∨ pyLower st = chrs "tbd" ∨ pyLower st = chrs "n/a" ∨
          pyLower st = chrs "unknown" then none
      else if isIsoShape st then some st
      else none
    | _ => none

/-- Validator `GeneratedScheduleTask._require_task_name` (main.py:236-241),
run after the str coercion: the stripped name must be non-empty. -/
def _require_task_name (s : List Char) : Except (List Char) (List Char) :=
  let cleaned := pyStrip s
  if cleaned.isEmpty then Except.error (chrs "task_name cannot be empty")
  else Except.ok cleaned

/-- Validator `GeneratedScheduleTask._default_status` (main.py:255-258), with
`always=True` so a missing field receives the declared default `proposed`:
a falsy value yields `proposed`, a string is stripped and lowercased with
the empty result defaulting to `proposed`, and a truthy non-string raises
(`.strip()` on it is an attribute error, surfacing as a validation error). -/
def _default_status (o : Option PyJson) : Except (List Char) (List Char) :=
  let value := o.getD (PyJson.jstr (chrs "proposed"))
  if pyFalsy value then Except.ok (chrs "proposed")
  else
    match value with
    | PyJson.jstr s =>
      let cand := pyLower (pyStrip s)
      Except.ok (if cand.isEmpty then chrs "proposed" else cand)
    | _ => Except.error (chrs "status attribute error")

/-- The schema `GeneratedScheduleTask` (main.py:230-258). -/
structure GeneratedScheduleTask where
  task_name : List Char
  start_date : Option (List Char)
  end_date : Option (List Char)
  status : List Char
deriving DecidableEq

/-- Construction `GeneratedScheduleTask(**item)`. -/
def mkGeneratedScheduleTask (fields : List (List Char × PyJson)) :
    Except (List Char) GeneratedScheduleTask := do
  let rawName ← match lookupField fields "task_name" with
    | none => Except.error (chrs "field required: task_name")
    | some PyJson.jnull => Except.error (chrs "none is not an allowed value: task_name")
    | some v => pydanticStr v
  let nameV ← _require_task_name rawName
  let sdV := match lookupField fields "start_date" with
    | none => none
    | some v => _normalize_optional_date v
  let edV := match lookupField fields "end_date" with
    | none => none
    | some v => _normalize_optional_date v
  let stV ← _default_status (lookupField fields "status")
  Except.ok { task_name := nameV, start_date := sdV, end_date := edV, status := stV }

/-- Gregorian leap-year test, as `datetime` uses it. -/
def isLeapYear (y : Nat) : Bool := y % 4 = 0 && (y % 100 ≠ 0 || y % 400 = 0)

/-- Days in a month of the proleptic Gregorian calendar. -/
def daysInMonth (y m : Nat) : Nat :=
  if m = 2 then (if isLeapYear y then 29 else 28)
  else if m = 4 ∨ m = 6 ∨ m = 9 ∨ m = 11 then 30
  else 31

/-- Model of `datetime.fromisoformat` on the `YYYY-MM-DD` strings produced by
the date validators (the only values reaching it in
`generate_tasks_from_document`): such a string parses exactly when it is a
valid calendar date with year at least 1 (datetime years run 1..9999; four
digits bound the year above).  Other shapes are not produced at the call
site and are mapped to failure. -/
def py_fromisoformat (s : List Char) : Option (Nat × Nat × Nat) :=
  match s with
  | [a, b, c, d, e, f, g, h, i, j] =>
    if isDig a ∧ isDig b ∧ isDig c ∧ isDig d ∧ e = '-' ∧ isDig f ∧ isDig g ∧
        h = '-' ∧ isDig i ∧ isDig j then
      let y := digitsVal [a, b, c, d]
      let m := digitsVal [f, g]
      let dd := digitsVal [i, j]
      if 1 ≤ y ∧ 1 ≤ m ∧ m ≤ 12 ∧ 1 ≤ dd ∧ dd ≤ daysInMonth y m then some (y, m, dd)
      else none
    else none
  | _ => none

/-- Date comparison on parsed `(year, month, day)` triples. -/
def dateLt (x y : Nat × Nat × Nat) : Bool :=
  x.1 < y.1 || (x.1 = y.1 && (x.2.1 < y.2.1 || (x.2.1 = y.2.1 && x.2.2 < y.2.2)))

/-- Python truthiness of an optional string. -/
def optStrTruthy : Option (List Char) → Bool
  | none => false
  | some s => ¬ s.isEmpty

/-- One row of the `prepared_rows` list in `generate_tasks_from_document`
(main.py:1292-1315). -/
structure ScheduleRow where
  project_id : Int
  task_name : List Char
  start_date : Option (List Char)
  end_date : Option (List Char)
  assigned_to : Option Int
  status : List Char
deriving DecidableEq

/-- Row preparation of `generate_tasks_from_document` (main.py:1292-1315):
when both dates are present (and truthy) they are parsed; if both parse and
the end is before the start, the end date alone is dropped; if either fails
to parse, both dates are dropped; the row status is the literal string
`proposed`, ignoring the status carried by the task. -/
def prepareRow (project_id : Int) (task : GeneratedScheduleTask) : ScheduleRow :=
  let sd := task.start_date
  let ed := task.end_date
  let p :=
    if optStrTruthy sd ∧ optStrTruthy ed then
      match py_fromisoformat (sd.getD []), py_fromisoformat (ed.getD []) with
      | some sdt, some edt => if dateLt edt sdt then (sd, (none : Option (List Char))) else (sd, ed)
      | _, _ => ((none : Option (List Char)), (none : Option (List Char)))
    else (sd, ed)
  { project_id := project_id, task_name := task.task_name, start_date := p.1,
    end_date := p.2, assigned_to := none, status := chrs "proposed" }

/-- All prepared rows of one request. -/
def prepareRows (project_id : Int) (tasks : List GeneratedScheduleTask) : List ScheduleRow :=
  tasks.map (prepareRow project_id)

/-- The `Schedule` response model (main.py:138-145). -/
structure Schedule where
  id : Option Int
  project_id : Int
  task_name : List Char
  start_date : Option (List Char)
  end_date : Option (List Char)
  assigned_to : Option Int
  status : List Char
deriving DecidableEq

/-- The local `Schedule` record built from a prepared row when nothing is
persisted or the insert echoes no data (main.py:1330-1342 and 1352-1363):
`status` comes from `row.get("status", "proposed")`. -/
def scheduleOfRow (r : ScheduleRow) : Schedule :=
  { id := none, project_id := r.project_id, task_name := r.task_name,
    start_date := r.start_date, end_date := r.end_date, assigned_to := none,
    status := r.status }

/-- Task list built from the parsed `tasks` payload (main.py:1280-1290): the
first `max_tasks` items are validated, invalid ones skipped. -/
def tasksFromPayload (maxTasks : Nat) (items : List PyJson) : List GeneratedScheduleTask :=
  (items.take maxTasks).filterMap (fun it =>
    match it with
    | PyJson.jobj fs =>
      match mkGeneratedScheduleTask fs with
      | Except.ok t => some t
      | Except.error _ => none
    | _ => none)

/-- Module state of the embedding provider (main.py:70-72): the cached
instance (identified by a number) and the sticky failure flag. -/
structure EmbeddingsState where
  embeddings : Option Nat
  init_failed : Bool
deriving DecidableEq

/-- Initial module state: nothing cached, no failure recorded. -/
def embeddingsInit : EmbeddingsState := { embeddings := none, init_failed := false }

/-- Function `get_embeddings` (main.py:74-95), with the environment outcome of
a `HuggingFaceEmbeddings(...)` construction passed explicitly (some instance
on success, none when it would raise).  Returns the call result, whether an
initialization was attempted, and the new module state. -/
def get_embeddings (st : EmbeddingsState) (initResult : Option Nat) :
    Option Nat × Bool × EmbeddingsState :=
  match st.embeddings with
  | some e => (some e, false, st)
  | none =>
    if st.init_failed then (none, false, st)
    else
      match initResult with
      | some inst => (some inst, true, { embeddings := some inst, init_failed := st.init_failed })
      | none => (none, true, { embeddings := none, init_failed := true })

/-- Fold of `get_embeddings` over a sequence of environment outcomes, one per
call. -/
def get_embeddings_runs (st : EmbeddingsState) :
    List (Option Nat) → List (Option Nat × Bool) × EmbeddingsState
  | [] => ([], st)
  | env :: rest =>
    let r := get_embeddings st env
    let rec2 := get_embeddings_runs r.2.2 rest
    ((r.1, r.2.1) :: rec2.1, rec2.2)

/-- Underscore discipline of CPython `int(x, 16)` digit strings: an
underscore must be followed by a hex digit and preceded by one (or by the
`0x` prefix when `prev` starts true). -/
def hexUnderscoreChk (prev : Bool) : List Char → Bool
  | [] => true
  | c :: r =>
    if c = '_' then
      prev && (match r with
        | d :: _ => (hexVal d).isSome
        | [] => false) && hexUnderscoreChk false r
    else
      (hexVal c).isSome && hexUnderscoreChk true r

/-- CPython `int(x, 16)`: surrounding whitespace stripped (ASCII model), an
optional sign, an optional `0x`/`0X` prefix, then hex digits with PEP 515
underscores.  Returns the parsed integer or none. -/
def pyIntBase16 (s : List Char) : Option Int :=
  let t := pyStrip s
  let sp := match t with
    | c :: r => if c = '+' then (some (1 : Int), r) else if c = '-' then (some (-1 : Int), r) else (some 1, t)
    | [] => (none, t)
  match sp.1 with
  | none => none
  | some sgn =>
    let pp := match sp.2 with
      | a :: b :: r => if a = '0' ∧ (b = 'x' ∨ b = 'X') then (true, r) else (false, sp.2)
      | _ => (false, sp.2)
    let digits := pp.2
    if digits.isEmpty then none
    else if hexUnderscoreChk pp.1 digits then
      let v := (digits.filter (fun c => c ≠ '_')).foldl
        (fun a c => 16 * a + ((hexVal c).getD 0)) (0 : Nat)
      some (sgn * Int.ofNat v)
    else none

/-- Helper `_is_valid_uuid` (main.py:1655-1660), modelling CPython
`uuid.UUID(str)`: drop every `urn:` and `uuid:`, strip braces from the ends,
drop every hyphen; the remainder must be exactly 32 characters that
`int(_, 16)` accepts, and the value must fit in 128 bits. -/
def _is_valid_uuid (value : List Char) : Bool :=
  let h1 := pyReplace (chrs "uuid:") [] (pyReplace (chrs "urn:") [] value)
  let h2 := pyReplace (chrs "-") [] (pyStripChars [obrace, cbrace] h1)
  if h2.length ≠ 32 then false
  else
    match pyIntBase16 h2 with
    | none => false
    | some n => decide (0 ≤ n) && decide (n < 2 ^ 128)

/-- Case-insensitive prefix test against an ASCII-lowercase pattern. -/
def ciStarts (pat : String) (s : List Char) : Bool :=
  pyLower (s.take (chrs pat).length) = chrs pat

/-- First substitution of `clean_ai_response`: the lazy close scan for
`<think>.*?</think>\s*`.  Returns the text after the match (the close tag and
the trailing whitespace run consumed) when a close tag occurs. -/
def thinkScanClose : List Char → Option (List Char)
  | [] => none
  | u@(_ :: t) =>
    if ciStarts "</think>" u then some ((u.drop 8).dropWhile pySpace)
    else thinkScanClose t

/-- Match of the first substitution pattern at the head of the text: the rest
after the whole match, when `<think>` starts here and a `</think>` follows. -/
def sub1MatchAt (s : List Char) : Option (List Char) :=
  if ciStarts "<think>" s then thinkScanClose (s.drop 7) else none

/-- Scan of `re.sub` for the first pattern, replacing each match with nothing
and continuing after it.  Fuel bounds the recursion; every step consumes at
least one character, so the callers pass enough. -/
def sub1Go : Nat → List Char → List Char
  | 0, s => s
  | Nat.succ f, s =>
    match sub1MatchAt s with
    | some rest => sub1Go f rest
    | none =>
      match s with
      | [] => []
      | c :: t => c :: sub1Go f t

/-- Lazy scan of the second substitution pattern `<think>.*?(?=\n\n|\Z)`: the
rest from the first blank line, or nothing when none follows. -/
def thinkScanBlank : List Char → List Char
  | [] => []
  | u@(_ :: t) =>
    if (chrs "\n\n").isPrefixOf u then u else thinkScanBlank t

/-- Match of the second substitution pattern at the head of the text. -/
def sub2MatchAt (s : List Char) : Option (List Char) :=
  if ciStarts "<think>" s then some (thinkScanBlank (s.drop 7)) else none

/-- Scan of `re.sub` for the second pattern. -/
def sub2Go : Nat → List Char → List Char
  | 0, s => s
  | Nat.succ f, s =>
    match sub2MatchAt s with
    | some rest => sub2Go f rest
    | none =>
      match s with
      | [] => []
      | c :: t => c :: sub2Go f t

/-- Function `clean_ai_response` (main.py:1584-1599): remove closed
`<think>...</think>` blocks (with trailing whitespace), then unterminated
`<think>` blocks up to a blank line or the end, then strip. -/
def clean_ai_response (content : List Char) : List Char :=
  let c1 := sub1Go (content.length + 1) content
  let c2 := sub2Go (c1.length + 1) c1
  pyStrip c2

/-- Close scan of the fenced-block regex: the lazy `.*?` inside
`(\{.*?\})\s*` followed by a closing fence.  `acc` holds the consumed body
reversed; the first closing brace whose tail is whitespace and a fence ends
the group. -/
def fenceClose : List Char → List Char → Option (List Char)
  | [], _ => none
  | c :: t, acc =>
    if c = cbrace ∧ (chrs "```").isPrefixOf (t.dropWhile pySpace) then
      some (obrace :: acc.reverse ++ [cbrace])
    else fenceClose t (c :: acc)

/-- Match of the fenced-block pattern at the head of the text: three
backticks, an optional case-insensitive `json`, whitespace, then a brace
group closed before a whitespace run and three backticks. -/
def fenceAt (s : List Char) : Option (List Char) :=
  if (chrs "```").isPrefixOf s then
    let r1 := s.drop 3
    let r2 := if pyLower (r1.take 4) = chrs "json" then r1.drop 4 else r1
    match r2.dropWhile pySpace with
    | c :: body => if c = obrace then fenceClose body [] else none
    | [] => none
  else none

/-- Leftmost match of the fenced-block regex
`` ```(?:json)?\s*(\{.*?\})\s*``` `` (DOTALL, IGNORECASE): the first start
position whose full pattern matches wins, as `re.search` scans. -/
def fenceSearch : List Char → Option (List Char)
  | [] => none
  | s@(_ :: t) =>
    match fenceAt s with
    | some c => some c
    | none => fenceSearch t

/-- Index of the last occurrence of a character. -/
def lastIdxOf (ch : Char) : List Char → Option Nat
  | [] => none
  | c :: t =>
    match lastIdxOf ch t with
    | some i => some (i + 1)
    | none => if c = ch then some 0 else none

/-- Match of the greedy fallback regex `\{.*\}` (DOTALL): from the first
opening brace to the last closing brace of the whole text, when one follows
it. -/
def braceSearch (s : List Char) : Option (List Char) :=
  match s.dropWhile (fun c => c ≠ obrace) with
  | [] => none
  | _ :: rest =>
    match lastIdxOf cbrace rest with
    | none => none
    | some i => some (obrace :: rest.take (i + 1))

/-- Candidate selection of `extract_json_block`: a fenced block first, then
the greedy brace span. -/
def jsonCandidate (text : List Char) : Option (List Char) :=
  match fenceSearch text with
  | some c => some c
  | none => braceSearch text

/-- Function `extract_json_block` (main.py:1602-1621): reject empty text,
pick the candidate, parse it as JSON; each failure raises (modelled as
`Except.error`). -/
def extract_json_block (text : List Char) : Except (List Char) PyJson :=
  if text.isEmpty then Except.error (chrs "Empty response text")
  else
    match jsonCandidate text with
    | none => Except.error (chrs "No JSON object found in response")
    | some cand =>
      match json_loads cand with
      | some v => Except.ok v
      | none => Except.error (chrs "Failed to parse JSON")

/-- The extraction-plus-normalization pass behind brief generation: extract
the JSON object from the text, then build `GeneratedProjectDetails` from its
fields (a non-object candidate cannot arise, since every candidate starts
with a brace; it is mapped to an error as `GeneratedProjectDetails(**x)`
would raise). -/
def extractProjectDetails (text : List Char) :
    Except (List Char) GeneratedProjectDetails :=
  match extract_json_block text with
  | Except.error e => Except.error e
  | Except.ok (PyJson.jobj fields) => mkGeneratedProjectDetails fields
  | Except.ok _ => Except.error (chrs "payload is not an object")

/-- Modelled from the spec: the chunking stage of `parse_document`
(main.py:1419-1428) delegates to the external
`CharacterTextSplitter(chunk_size=1000, chunk_overlap=100)`, whose code is
not part of this repository.  Per the spec (section 4.1) it produces an
ordered sequence of overlapping substrings of target length 1000 with
overlap 100, boundaries chosen by character count, empty only on empty
input. -/
def chunk_text (s : List Char) : List (List Char) :=
  if s.isEmpty then []
  else if s.length ≤ 1000 then [s]
  else s.take 1000 :: chunk_text (s.drop 900)
termination_by s.length
decreasing_by simp_all [List.isEmpty_iff]; omega

/-- De-overlapped concatenation: the first chunk whole, every later chunk
with the first 100 (overlapping) characters dropped. -/
def deOverlap : List (List Char) → List Char
  | [] => []
  | c :: rest => c ++ (rest.map (fun x => x.drop 100)).foldr (fun a b => a ++ b) []

/-- Metadata values occurring in chunk annotation. -/
inductive MetaVal where
  | mstr : List Char → MetaVal
  | mnat : Nat → MetaVal
deriving DecidableEq

/-- Insert with Python dict semantics (an existing key keeps its position). -/
def metaInsert (k : List Char) (v : MetaVal) :
    List (List Char × MetaVal) → List (List Char × MetaVal)
  | [] => [(k, v)]
  | (k0, v0) :: r => if k0 = k then (k0, v) :: r else (k0, v0) :: metaInsert k v r

/-- Python `dict.update` with a list of pairs. -/
def dictUpd (base : List (List Char × MetaVal)) (upds : List (List Char × MetaVal)) :
    List (List Char × MetaVal) :=
  upds.foldl (fun b kv => metaInsert kv.1 kv.2 b) base

/-- Lookup in a metadata dict (first match, as dict lookup). -/
def metaLookup : List (List Char × MetaVal) → List Char → Option MetaVal
  | [], _ => none
  | (k0, v) :: r, k => if k0 = k then some v else metaLookup r k

/-- A chunk document: page content and metadata. -/
structure AnnChunk where
  content : List Char
  metadata : List (List Char × MetaVal)
deriving DecidableEq

/-- Full-text assembly of `parse_document` (main.py:1417): the page texts
joined with a blank-line separator. -/
def joinPages (pages : List (List Char)) : List Char := pyJoin (chrs "\n\n") pages

/-- Annotation stage of `parse_document` (main.py:1430-1444): every chunk's
metadata is updated with the filename, upload timestamp, file size, page
count, its position as `chunk_index`, the chunk total and the full document
text. -/
def annotate_chunks (filename ts : List Char) (fileSize : Nat)
    (pages : List (List Char)) (docs : List AnnChunk) : List AnnChunk :=
  docs.enum.map (fun p =>
    { content := p.2.content,
      metadata := dictUpd p.2.metadata
        [(chrs "filename", MetaVal.mstr filename),
         (chrs "upload_timestamp", MetaVal.mstr ts),
         (chrs "file_size", MetaVal.mnat fileSize),
         (chrs "page_count", MetaVal.mnat pages.length),
         (chrs "chunk_index", MetaVal.mnat p.1),
         (chrs "total_chunks", MetaVal.mnat docs.length),
         (chrs "full_document_text", MetaVal.mstr (joinPages pages))] })

/-- A document returned by the similarity search (`retrieve_documents`,
main.py:1498-1523): its metadata filename, when present, and its page
content. -/
structure RDoc where
  filename : Option (List Char)
  page_content : List Char
deriving DecidableEq

/-- Outcome of the vector-store similarity search inside
`retrieve_documents`: results, or an exception caught by the function. -/
inductive RetrievalOutcome where
  | results : List RDoc → RetrievalOutcome
  | failure : List Char → RetrievalOutcome
deriving DecidableEq

/-- A stored chat message row: the shape both the `chat_messages` table rows
and the ephemeral thread entries carry. -/
structure StoredMsg where
  conversation_id : List Char
  message_type : List Char
  content : List Char
  index_order : Nat
  created_at : List Char
deriving DecidableEq

/-- Environment of one `send_chat_message` request: every external outcome
the handler observes, passed explicitly.  `graphRaw` is the content of the
first streamed non-tool AI message, none when the stream yields none or
raises.  `fetchResult` is none when the history read raises.  The write
flags say whether each durable write would raise (a raise aborts the rest of
its `try` block and is absorbed). -/
structure ChatEnv where
  embeddingsAvailable : Bool
  retrieval : RetrievalOutcome
  graphAvailable : Bool
  graphRaw : Option (List Char)
  fetchResult : Option (List StoredMsg)
  conversationExists : Bool
  convCheckOk : Bool
  convWriteOk : Bool
  aiInsertOk : Bool
  now1 : List Char
  now2 : List Char
deriving DecidableEq

/-- Serialization of retrieved documents inside `retrieve_documents`
(main.py:1514-1520). -/
def serializeDocs (docs : List RDoc) : List Char :=
  pyJoin (chrs "\n\n") (docs.map (fun d =>
    chrs "Document: " ++ d.filename.getD (chrs "Unknown") ++
      chrs "\nContent: " ++ d.page_content.take 500 ++ chrs "..."))

/-- Tool function `retrieve_documents` (main.py:1498-1523): unavailable
embeddings short-circuit; a search failure is caught and rendered as an
error message with no documents. -/
def retrieve_documents (env : ChatEnv) (_query : List Char) : List Char × List RDoc :=
  if ¬ env.embeddingsAvailable then (chrs "Document search is not available", [])
  else
    match env.retrieval with
    | RetrievalOutcome.results docs => (serializeDocs docs, docs)
    | RetrievalOutcome.failure msg => (chrs "Error retrieving documents: " ++ msg, [])

/-- The guidance line opening a non-empty fallback reply (main.py:1755-1758). -/
def fallbackGuidance : List Char :=
  chrs ("I\x27m currently operating in fallback mode and don\x27t have full AI " ++
    "reasoning available. Here is what I can share based on your project documents:")

/-- The fixed apology reply (main.py:1761-1764). -/
def fallbackApology : List Char :=
  chrs ("I\x27m currently operating in fallback mode and can\x27t access the " ++
    "ConstructIQ AI model. Please verify that the model service is running, then try again.")

/-- One snippet line of the fallback reply (main.py:1740-1745): newlines
become spaces, the snippet is stripped and ellipsis-truncated past 220
characters. -/
def snippetOf (d : RDoc) : List Char :=
  let fn := d.filename.getD (chrs "Document")
  let sn := pyStrip (pyReplace [Char.ofNat 10] [' '] d.page_content)
  let sn2 := if 220 < sn.length then pyRStrip (sn.take 220) ++ chrs "..." else sn
  chrs "- " ++ fn ++ chrs ": " ++ sn2

/-- The snippet section of the fallback reply (main.py:1746-1748), built from
the first three documents. -/
def snippetSection (docs : List RDoc) : List Char :=
  chrs "Relevant document excerpts:\n" ++ pyJoin [Char.ofNat 10] ((docs.take 3).map snippetOf)

/-- Function `build_fallback_response` (main.py:1725-1764): with embeddings
available, a retrieval with documents yields the snippet section, one with a
non-empty serialized string (the error or unavailable text) yields that
string, and otherwise — as with unavailable embeddings — no section is
collected and the fixed apology is returned. -/
def build_fallback_response (env : ChatEnv) (user_message : List Char) : List Char :=
  let sections : List (List Char) :=
    if env.embeddingsAvailable then
      let r := retrieve_documents env user_message
      if ¬ r.2.isEmpty then [snippetSection r.2]
      else if ¬ r.1.isEmpty then [r.1]
      else []
    else []
  if ¬ sections.isEmpty then fallbackGuidance ++ chrs "\n\n" ++ pyJoin (chrs "\n\n") sections
  else fallbackApology

/-- The reply text of one chat turn (main.py:2011-2042): the cleaned content
of the graph's answer when the graph is available and streamed one, with the
fallback reply standing in when there is no graph, no answer, or the cleaned
answer is empty (Python truthiness). -/
def chatAiText (env : ChatEnv) (message : List Char) : List Char :=
  match (if env.graphAvailable then env.graphRaw else none) with
  | some r =>
    let c := clean_ai_response r
    if c.isEmpty then build_fallback_response env message else c
  | none => build_fallback_response env message

/-- The response body of a successful `send_chat_message`. -/
structure ChatResponse where
  conversation_id : List Char
  thread_id : List Char
  user_message : List Char
  ai_response : List Char
  ai_responses : List (List Char × List Char)
  timestamp : List Char
deriving DecidableEq

/-- An HTTPException as status and detail. -/
structure HttpErr where
  status : Nat
  detail : List Char
deriving DecidableEq

/-- Durable-store operations `send_chat_message` can attempt against
Supabase. -/
inductive DurableOp where
  | fetchMessages : List Char → DurableOp
  | checkConversation : List Char → DurableOp
  | insertConversation : List Char → List Char → DurableOp
  | touchConversation : List Char → DurableOp
  | insertMessage : List Char → List Char → List Char → Nat → DurableOp
deriving DecidableEq

/-- A message as replayed into the graph input. -/
inductive LMsg where
  | human : List Char → LMsg
  | ai : List Char → LMsg
deriving DecidableEq

/-- The ephemeral in-process map `ephemeral_chat_threads` (main.py:110). -/
def ChatThreads : Type := List (List Char × List StoredMsg)

/-- Thread list of a conversation id (`dict.get(key, [])`). -/
def threadsGet : ChatThreads → List Char → List StoredMsg
  | [], _ => []
  | (k0, l) :: r, k => if k0 = k then l else threadsGet r k

/-- Append to a thread list (`dict.setdefault(key, []).append(msg)`). -/
def threadsAppend (m : ChatThreads) (k : List Char) (msg : StoredMsg) : ChatThreads :=
  match (m : List (List Char × List StoredMsg)) with
  | [] => [(k, [msg])]
  | (k0, l) :: r =>
    if k0 = k then (k0, l ++ [msg]) :: r
    else (k0, l) :: (threadsAppend r k msg : List (List Char × List StoredMsg))

/-- The JSON request body of `send_chat_message`, restricted to string-valued
fields (a non-string field would make `.strip()` raise and surface as the
catch-all 500; no claim exercises one). -/
structure RequestBody where
  message : Option (List Char)
  conversation_id : Option (List Char)
  thread_id : Option (List Char)
deriving DecidableEq

/-- Conversation title derived from the first message (main.py:1969). -/
def titleOf (m : List Char) : List Char :=
  if 50 < m.length then m.take 50 ++ chrs "..." else m

/-- The stripped message of a request body:
`(request_body.get("message") or "").strip()`. -/
def requestMessage (body : RequestBody) : List Char :=
  pyStrip (body.message.getD [])

/-- The stripped conversation identifier of a request body:
`(request_body.get("conversation_id") or request_body.get("thread_id") or "").strip()`
with Python `or` coalescing on falsy values. -/
def requestConversationId (body : RequestBody) : List Char :=
  pyStrip
    (if body.conversation_id.isSome ∧ ¬ (body.conversation_id.getD []).isEmpty then
      body.conversation_id.getD []
    else if body.thread_id.isSome ∧ ¬ (body.thread_id.getD []).isEmpty then
      body.thread_id.getD []
    else [])

/-- History replay (main.py:1945-1951): stored rows become human or AI
messages by their `message_type`. -/
def replayOf (msgs : List StoredMsg) : List LMsg :=
  msgs.map (fun m =>
    if m.message_type = chrs "user" then LMsg.human m.content else LMsg.ai m.content)

/-- Everything one `send_chat_message` call produces: the HTTP result, the
ephemeral map afterwards, the durable operations attempted in order, and the
history replayed into the graph (exposed for the continuity claim). -/
structure SendResult where
  result : Except HttpErr ChatResponse
  threads : ChatThreads
  ops : List DurableOp
  replayed : List LMsg

/-- Endpoint `send_chat_message` (main.py:1883-2096).  The body fields are
read with `or` coalescing (main.py:1889-1893), validation rejects an empty
message and then a missing identifier before any effect, the history is
loaded from the durable store (UUID id) or the ephemeral map, the user
message is appended, the graph output (cleaned) or the fallback builds the
reply, and the reply is appended; durable failures are absorbed. -/
def send_chat_message (env : ChatEnv) (threads : ChatThreads) (body : RequestBody) :
    SendResult :=
  let message := requestMessage body
  let conversation_id := requestConversationId body
  let persist := _is_valid_uuid conversation_id
  if message.isEmpty then
    { result := Except.error ⟨400, chrs "Message cannot be empty"⟩,
      threads := threads, ops := [], replayed := [] }
  else if conversation_id.isEmpty then
    { result := Except.error ⟨400, chrs "Conversation or thread identifier is required"⟩,
      threads := threads, ops := [], replayed := [] }
  else
    let fetchOps : List DurableOp :=
      if persist then [DurableOp.fetchMessages conversation_id] else []
    let existing : List StoredMsg :=
      if persist then env.fetchResult.getD []
      else threadsGet threads conversation_id
    let replayed := replayOf existing ++ [LMsg.human message]
    let next_index := existing.length
    let userStep : ChatThreads × List DurableOp :=
      if persist then
        (threads,
          DurableOp.checkConversation conversation_id ::
            (if ¬ env.convCheckOk then []
             else
               (if ¬ env.conversationExists then
                  DurableOp.insertConversation conversation_id (titleOf message) ::
                    (if env.convWriteOk then
                      [DurableOp.insertMessage conversation_id (chrs "user") message next_index]
                     else [])
                else
                  DurableOp.touchConversation conversation_id ::
                    (if env.convWriteOk then
                      [DurableOp.insertMessage conversation_id (chrs "user") message next_index]
                     else []))))
      else
        (threadsAppend threads conversation_id
          ⟨conversation_id, chrs "user", message, next_index, env.now1⟩, [])
    let ai_text := chatAiText env message
    let ai_timestamp := env.now2
    let aiStep : ChatThreads × List DurableOp :=
      if persist ∧ ¬ ai_text.isEmpty then
        (userStep.1,
          DurableOp.insertMessage conversation_id (chrs "ai") ai_text (next_index + 1) ::
            (if env.aiInsertOk then [DurableOp.touchConversation conversation_id] else []))
      else if ¬ ai_text.isEmpty then
        (threadsAppend userStep.1 conversation_id
          ⟨conversation_id, chrs "ai", ai_text, next_index + 1, ai_timestamp⟩, [])
      else (userStep.1, [])
    { result := Except.ok
        { conversation_id := conversation_id, thread_id := conversation_id,
          user_message := message, ai_response := ai_text,
          ai_responses := if ¬ ai_text.isEmpty then [(ai_text, ai_timestamp)] else [],
          timestamp := ai_timestamp },
      threads := aiStep.1,
      ops := fetchOps ++ userStep.2 ++ aiStep.2,
      replayed := replayed }

/-- Reply shapes asserted by claim C4, written from the words of the claim
for comparison with the code: the cleaned graph answer when available,
otherwise a fallback built from up to 3 retrieved snippets or the fixed
apology message. -/
def c4ClaimedReplyShape (env : ChatEnv) (reply : List Char) : Prop :=
  (∃ raw, env.graphAvailable ∧ env.graphRaw = some raw ∧ reply = clean_ai_response raw) ∨
  (∃ docs : List RDoc, reply = fallbackGuidance ++ chrs "\n\n" ++ snippetSection docs) ∨
  reply = fallbackApology

/-- Reply shapes of the amended claim C4: the shapes the claim lists, plus
the retrieval-error shape the code also produces (a fallback embedding the
caught similarity-search error text). -/
def c4AmendedReplyShape (env : ChatEnv) (reply : List Char) : Prop :=
  c4ClaimedReplyShape env reply ∨
    (∃ msg, reply = fallbackGuidance ++ chrs "\n\n" ++
      (chrs "Error retrieving documents: " ++ msg))

/-- JSON value of an optional string field: null when absent. -/
def optStrJson : Option (List Char) → PyJson
  | none => PyJson.jnull
  | some a => PyJson.jstr a

/-- JSON value of the optional float field: null when absent, else the
number token. -/
def optNumJson : Option (List Char) → PyJson
  | none => PyJson.jnull
  | some a => PyJson.jnum a

/-- JSON value of the optional string-list field: null when absent. -/
def optArrJson : Option (List (List Char)) → PyJson
  | none => PyJson.jnull
  | some l => PyJson.jarr (l.map PyJson.jstr)

/-- The field dictionary `p.dict()` of a `GeneratedProjectDetails`, in model
field order, with null for the missing optional values and the float field
as a number token. -/
def gpdFields (p : GeneratedProjectDetails) : List (List Char × PyJson) :=
  [(chrs "name", PyJson.jstr p.name),
   (chrs "description", PyJson.jstr p.description),
   (chrs "address", optStrJson p.address),
   (chrs "start_date", optStrJson p.start_date),
   (chrs "end_date", optStrJson p.end_date),
   (chrs "budget_estimate", optNumJson p.budget_estimate),
   (chrs "budget_currency", PyJson.jstr p.budget_currency),
   (chrs "assumptions", optArrJson p.assumptions),
   (chrs "confidence", optStrJson p.confidence),
   (chrs "additional_notes", optStrJson p.additional_notes)]

/-- The JSON value a `GeneratedProjectDetails` re-serializes to. -/
def gpdJson (p : GeneratedProjectDetails) : PyJson := PyJson.jobj (gpdFields p)

/-- The re-serialized JSON text of a `GeneratedProjectDetails`
(`json.dumps(p.dict())`). -/
def gpdDumps (p : GeneratedProjectDetails) : List Char := json_dumps (gpdJson p)

/-- Normalization invariant of the date fields: absent or of the strict
`YYYY-MM-DD` shape (what `_normalize_date` outputs). -/
def isoOpt (o : Option (List Char)) : Bool :=
  match o with
  | none => true
  | some d => isIsoShape d

/-- Normalization invariant of the assumptions field: absent or a non-empty
list of non-empty stripped strings (what `_coerce_assumptions` outputs). -/
def assumptionsNormalized (o : Option (List (List Char))) : Bool :=
  match o with
  | none => true
  | some l => ¬ l.isEmpty && l.all (fun x => ¬ x.isEmpty && pyStrip x = x)

/-- Rests after which a number token must stop: nothing, a comma, a closing
brace or a closing bracket (the only contexts `json.dumps` output puts after
a number). -/
def restStop (rest : List Char) : Bool :=
  match rest with
  | [] => true
  | c :: _ => c = ',' ∨ c = cbrace ∨ c = Char.ofNat 93

/-- Stability of a number token under the value scanner: the scanner reads
exactly the token back in any whitespace-prefixed, properly delimited
context.  In the float model this states that the serialized form of the
float re-parses to the same token — the caveat under which the idempotence
claim is settled (true in CPython for every float `repr`). -/
def NumTokenStable (tok : List Char) : Prop :=
  ∀ f w rest, 1 ≤ f → w.all jsonWs = true → restStop rest = true →
    parseJValue f (w ++ tok ++ rest) = some (PyJson.jnum tok, rest)

/-- Stability of the optional budget token. -/
def budgetStable (o : Option (List Char)) : Prop :=
  ∀ tok, o = some tok → NumTokenStable tok

/-- Fuel a value needs in the value scanner: one step, plus one per array
element. -/
def vfuel : PyJson → Nat
  | PyJson.jarr l => l.length + 2
  | _ => 1

/-- A value whose serialized form scans back to itself in any
whitespace-prefixed, properly delimited context, given its fuel. -/
def ValueParses (v : PyJson) : Prop :=
  ∀ f w rest, vfuel v ≤ f → w.all jsonWs = true → restStop rest = true →
    parseJValue f (w ++ (json_dumps v ++ rest)) = some (v, rest)

/-- Fuel an object member list needs in the object scanner. -/
def objBound : List (List Char × PyJson) → Nat
  | [] => 1
  | kv :: r => vfuel kv.2 + 2 + objBound r

/-- Substring occurrence test. -/
def hasSeq (pat : List Char) : List Char → Bool
  | [] => pat.isEmpty
  | c :: t => pat.isPrefixOf (c :: t) || hasSeq pat t

/-- The scenario text of claim C3. -/
def c3ScenarioText : List Char :=
  chrs "Sure! ```json\n\x7b\"name\":\"X\",\"description\":\"Y\"\x7d\n``` Hope that helps!"

/-- The adversarial input of the C9 counterexample: a bare JSON object whose
`name` spells a backtick code fence through ``` escapes, so the first
extraction sees no fence and takes the whole object. -/
def c9Input : List Char :=
  chrs "\x7b\"name\": \"\\u0060\\u0060\\u0060 \x7b\x7d \\u0060\\u0060\\u0060\", \"description\": \"d\"\x7d"

/-- The object the pass produces from `c9Input`. -/
def c9Object : GeneratedProjectDetails :=
  { name := chrs "``` \x7b\x7d ```", description := chrs "d", address := none,
    start_date := none, end_date := none, budget_estimate := none,
    budget_currency := chrs "USD", assumptions := none, confidence := none,
    additional_notes := none }

/-- Environment of the C4 counterexample: graph unavailable, embeddings
ready, similarity search raising. -/
def c4Env0 : ChatEnv :=
  { embeddingsAvailable := true, retrieval := RetrievalOutcome.failure (chrs "boom"),
    graphAvailable := false, graphRaw := none, fetchResult := none,
    conversationExists := false, convCheckOk := true, convWriteOk := true,
    aiInsertOk := true, now1 := chrs "t1", now2 := chrs "t2" }

/-- Request body of the C4 counterexample. -/
def c4Body0 : RequestBody :=
  { message := some (chrs "hello"), conversation_id := some (chrs "not-a-uuid"),
    thread_id := none }

/-- The reply the code produces in the C4 counterexample environment. -/
def c4Reply0 : List Char :=
  fallbackGuidance ++ chrs "\n\n" ++ (chrs "Error retrieving documents: " ++ chrs "boom")

/-- Fields of the C1 counterexample task, as the LLM payload would carry
them. -/
def c1Fields : List (List Char × PyJson) :=
  [(chrs "task_name", PyJson.jstr (chrs "Excavation")),
   (chrs "start_date", PyJson.jstr (chrs "2024-01-10")),
   (chrs "end_date", PyJson.jstr (chrs "2024-01-05")),
   (chrs "status", PyJson.jstr (chrs "proposed"))]

/-- The validated C1 counterexample task. -/
def c1Task : GeneratedScheduleTask :=
  { task_name := chrs "Excavation", start_date := some (chrs "2024-01-10"),
    end_date := some (chrs "2024-01-05"), status := chrs "proposed" }

/-! ## Claim theorems -/

/-- C5: the embedding provider is a state machine `uninitialized → ready |
failed` with both outcomes absorbing: with the sticky failure flag set every
call returns the unavailable sentinel without attempting initialization and
leaves the state unchanged; with a cached instance every call returns that
same instance without attempting initialization; from the initial state one
failing initialization moves to the sticky-failed state and one succeeding
initialization caches the instance. -/
theorem c5_embedding_provider_state_machine :
    (∀ envs : List (Option Nat),
      get_embeddings_runs { embeddings := none, init_failed := true } envs =
        (envs.map (fun _ => ((none : Option Nat), false)),
         { embeddings := none, init_failed := true })) ∧
    (∀ (e : Nat) (flag : Bool) (envs : List (Option Nat)),
      get_embeddings_runs { embeddings := some e, init_failed := flag } envs =
        (envs.map (fun _ => (some e, false)),
         { embeddings := some e, init_failed := flag })) ∧
    get_embeddings embeddingsInit none =
      (none, true, { embeddings := none, init_failed := true }) ∧
    (∀ inst : Nat, get_embeddings embeddingsInit (some inst) =
      (some inst, true, { embeddings := some inst, init_failed := false })) := by
  refine ⟨?_, ?_, rfl, fun inst => rfl⟩
  · intro envs
    induction envs with
    | nil => rfl
    | cons h t ih => simp [get_embeddings_runs, get_embeddings, ih]
  · intro e flag envs
    induction envs with
    | nil => rfl
    | cons h t ih => simp [get_embeddings_runs, get_embeddings, ih]

/-- C10: every prepared, returned or persisted task row carries the literal
status `proposed`: the row builder writes that constant for every task, the
locally built `Schedule` records inherit it, and the validator-normalized
status (here `IN PROGRESS`, lowercased to `in progress`) is discarded when
the row is built. -/
theorem c10_row_status_always_proposed :
    (∀ (pid : Int) (t : GeneratedScheduleTask),
      (prepareRow pid t).status = chrs "proposed" ∧
      (scheduleOfRow (prepareRow pid t)).status = chrs "proposed") ∧
    mkGeneratedScheduleTask
      [(chrs "task_name", PyJson.jstr (chrs "Pour slab")),
       (chrs "status", PyJson.jstr (chrs "IN PROGRESS"))] =
      Except.ok ({ task_name := chrs "Pour slab", start_date := none,
                   end_date := none, status := chrs "in progress" } :
        GeneratedScheduleTask) ∧
    (prepareRow 7 ({ task_name := chrs "Pour slab", start_date := none,
                     end_date := none, status := chrs "in progress" } :
      GeneratedScheduleTask)).status = chrs "proposed" :=
  ⟨fun _ _ => ⟨rfl, rfl⟩, rfl, rfl⟩

/-- C1 counterexample: for the validated task with `start_date 2024-01-10`
and `end_date 2024-01-05` (both parse, end before start), the prepared row
keeps `start_date` and nulls only `end_date` — the claim that both fields
are null is false. -/
theorem c1_counterexample :
    mkGeneratedScheduleTask c1Fields = Except.ok c1Task ∧
    py_fromisoformat (chrs "2024-01-10") = some (2024, 1, 10) ∧
    py_fromisoformat (chrs "2024-01-05") = some (2024, 1, 5) ∧
    dateLt (2024, 1, 5) (2024, 1, 10) = true ∧
    (prepareRow 1 c1Task).start_date = some (chrs "2024-01-10") ∧
    (prepareRow 1 c1Task).end_date = none ∧
    ¬ ((prepareRow 1 c1Task).start_date = none ∧ (prepareRow 1 c1Task).end_date = none) :=
  ⟨rfl, rfl, rfl, rfl, rfl, rfl, by decide⟩

/-- C1 amended: when both dates are present, both parse as dates, and the
end is before the start, the prepared row keeps the start date unchanged and
nulls only the end date (both are nulled only when a date fails calendar
parsing); the row otherwise carries the task name and status `proposed`. -/
theorem c1_amended_only_end_date_nulled (pid : Int) (t : GeneratedScheduleTask)
    (s e : List Char) (ds de : Nat × Nat × Nat)
    (hs : t.start_date = some s) (he : t.end_date = some e)
    (hps : py_fromisoformat s = some ds) (hpe : py_fromisoformat e = some de)
    (hlt : dateLt de ds = true) :
    (prepareRow pid t).start_date = some s ∧ (prepareRow pid t).end_date = none ∧
    (prepareRow pid t).task_name = t.task_name ∧
    (prepareRow pid t).status = chrs "proposed" := by
  have hsne : s ≠ [] := by
    intro h0
    rw [h0] at hps
    simp [py_fromisoformat] at hps
  have hene : e ≠ [] := by
    intro h0
    rw [h0] at hpe
    simp [py_fromisoformat] at hpe
  simp [prepareRow, hs, he, optStrTruthy, hsne, hene, hps, hpe, hlt,
    List.isEmpty_iff]

/-- C1 witness: the amended statement at the concrete counterexample task. -/
theorem c1_amended_witness :
    (prepareRow 1 c1Task).start_date = some (chrs "2024-01-10") ∧
    (prepareRow 1 c1Task).end_date = none ∧
    (prepareRow 1 c1Task).task_name = c1Task.task_name ∧
    (prepareRow 1 c1Task).status = chrs "proposed" :=
  c1_amended_only_end_date_nulled 1 c1Task (chrs "2024-01-10") (chrs "2024-01-05")
    (2024, 1, 10) (2024, 1, 5) rfl rfl rfl rfl rfl

/-- C6: both date normalizers accept only (stripped) strings matching
`YYYY-MM-DD`, map the placeholders `unknown`, `n/a`, `tbd` and
empty or whitespace strings to null, map every non-string value to null
without raising (both are total functions), and accept the regex-matching
but calendar-invalid `2024-13-40` unchanged. -/
theorem c6_date_normalizers_format_only :
    (∀ v : PyJson,
      (∀ s, _normalize_date v = some s →
        ∃ raw, v = PyJson.jstr raw ∧ s = pyStrip raw ∧ isIsoShape s = true) ∧
      (∀ s, _normalize_optional_date v = some s →
        ∃ raw, v = PyJson.jstr raw ∧ s = pyStrip raw ∧ isIsoShape s = true) ∧
      ((∀ raw, v ≠ PyJson.jstr raw) →
        _normalize_date v = none ∧ _normalize_optional_date v = none)) ∧
    (∀ raw, (pyStrip raw = [] ∨ pyLower (pyStrip raw) = chrs "unknown" ∨
        pyLower (pyStrip raw) = chrs "n/a" ∨ pyLower (pyStrip raw) = chrs "tbd") →
      _normalize_date (PyJson.jstr raw) = none ∧
      _normalize_optional_date (PyJson.jstr raw) = none) ∧
    _normalize_date (PyJson.jstr (chrs "2024-13-40")) = some (chrs "2024-13-40") ∧
    _normalize_optional_date (PyJson.jstr (chrs "2024-13-40")) =
      some (chrs "2024-13-40") := by
  refine ⟨?_, ?_, rfl, rfl⟩
  · intro v
    refine ⟨?_, ?_, ?_⟩
    · intro s h
      cases v <;> simp only [_normalize_date] at h <;>
        try exact Option.noConfusion h
      case jstr raw =>
        refine ⟨raw, rfl, ?_⟩
        split_ifs at h <;> simp_all
    · intro s h
      cases v with
      | jstr raw =>
        refine ⟨raw, rfl, ?_⟩
        simp only [_normalize_optional_date] at h
        split_ifs at h <;> simp_all
      | jnull => simp [_normalize_optional_date, pyFalsy] at h
      | jbool b => simp [_normalize_optional_date, pyFalsy, ite_self] at h
      | jnum t => simp [_normalize_optional_date, pyFalsy, ite_self] at h
      | jarr l => simp [_normalize_optional_date, pyFalsy, ite_self] at h
      | jobj l => simp [_normalize_optional_date, pyFalsy, ite_self] at h
    · intro hns
      cases v with
      | jstr raw => exact absurd rfl (hns raw)
      | jnull => exact ⟨rfl, rfl⟩
      | jbool b => exact ⟨rfl, by simp [_normalize_optional_date, ite_self]⟩
      | jnum t => exact ⟨rfl, by simp [_normalize_optional_date, ite_self]⟩
      | jarr l => exact ⟨rfl, by simp [_normalize_optional_date, ite_self]⟩
      | jobj l => exact ⟨rfl, by simp [_normalize_optional_date, ite_self]⟩
  · intro raw hp
    constructor
    · simp only [_normalize_date]
      split_ifs with h1 h2 h3 <;> try rfl
      rcases hp with h | h | h | h <;> simp_all [List.isEmpty_iff]
    · simp only [_normalize_optional_date]
      split_ifs with h0 h1 h2 <;> try rfl
      rcases hp with h | h | h | h <;> simp_all [List.isEmpty_iff]

/-- C3: on the scenario text — prose around a ```json fence holding
`{"name":"X","description":"Y"}` — extraction returns exactly that object,
ignoring the surrounding prose; and in general `extract_json_block` fails
exactly when the candidate search (fenced block first, then the greedy brace
span) finds nothing or the candidate does not parse as JSON. -/
theorem c3_extract_json_block_fence_then_braces :
    extract_json_block c3ScenarioText =
      Except.ok (PyJson.jobj [(chrs "name", PyJson.jstr (chrs "X")),
        (chrs "description", PyJson.jstr (chrs "Y"))]) ∧
    (∀ t : List Char,
      (∃ msg, extract_json_block t = Except.error msg) ↔
        (jsonCandidate t = none ∨
          ∃ c, jsonCandidate t = some c ∧ json_loads c = none)) := by
  constructor
  · rfl
  · intro t
    constructor
    · rintro ⟨msg, hmsg⟩
      unfold extract_json_block at hmsg
      split_ifs at hmsg with hemp
      · left
        have ht : t = [] := List.isEmpty_iff.mp hemp
        subst ht
        rfl
      · cases hc : jsonCandidate t with
        | none => exact Or.inl rfl
        | some c =>
          simp only [hc] at hmsg
          cases hl : json_loads c with
          | none => exact Or.inr ⟨c, rfl, hl⟩
          | some v =>
            simp only [hl] at hmsg
            exact Except.noConfusion hmsg
    · intro hr
      unfold extract_json_block
      split_ifs with hemp
      · exact ⟨_, rfl⟩
      · rcases hr with hc | ⟨c, hc, hl⟩
        · simp only [hc]
          exact ⟨_, rfl⟩
        · simp only [hc, hl]
          exact ⟨_, rfl⟩

/-- Appending to a thread extends exactly that conversation's list. -/
theorem threadsGet_threadsAppend_same (m : ChatThreads) (k : List Char) (msg : StoredMsg) :
    threadsGet (threadsAppend m k msg) k = threadsGet m k ++ [msg] := by
  induction m with
  | nil => simp [threadsAppend, threadsGet]
  | cons kv r ih =>
    cases kv with
    | mk k0 l =>
      by_cases hk : k0 = k
      · simp [threadsAppend, threadsGet, hk]
      · simp [threadsAppend, threadsGet, hk, ih]

/-- Every fallback reply is the apology, a snippet section over some
non-empty document list, or the caught retrieval-error text after the
guidance line. -/
theorem build_fallback_response_shape (env : ChatEnv) (msg : List Char) :
    build_fallback_response env msg = fallbackApology ∨
    (∃ docs : List RDoc, docs ≠ [] ∧
      build_fallback_response env msg =
        fallbackGuidance ++ chrs "\n\n" ++ snippetSection docs) ∨
    (∃ m, build_fallback_response env msg =
      fallbackGuidance ++ chrs "\n\n" ++ (chrs "Error retrieving documents: " ++ m)) := by
  unfold build_fallback_response retrieve_documents
  by_cases he : env.embeddingsAvailable
  · cases hr : env.retrieval with
    | results docs =>
      by_cases hd : docs.isEmpty
      · have hd0 : docs = [] := List.isEmpty_iff.mp hd
        subst hd0
        left
        simp [he, serializeDocs, pyJoin]
      · right; left
        refine ⟨docs, by simp [List.isEmpty_iff] at hd; exact hd, ?_⟩
        simp [he, hd, pyJoin]
    | failure m =>
      right; right
      refine ⟨m, ?_⟩
      simp only [he, if_true, List.isEmpty_iff]
      simp [pyJoin]
      exact fun h1 _ => absurd h1 (by decide)
  · left
    simp [he]

/-- A fallback reply is never empty. -/
theorem build_fallback_response_ne_nil (env : ChatEnv) (msg : List Char) :
    build_fallback_response env msg ≠ [] := by
  rcases build_fallback_response_shape env msg with h | ⟨docs, _, h⟩ | ⟨m, h⟩ <;> rw [h]
  · decide
  all_goals
    intro he
    rcases List.append_eq_nil.mp he with ⟨he1, _⟩
    rcases List.append_eq_nil.mp he1 with ⟨he2, _⟩
    exact absurd he2 (by decide)

/-- The reply of a chat turn is never empty. -/
theorem chatAiText_ne_nil (env : ChatEnv) (msg : List Char) :
    chatAiText env msg ≠ [] := by
  unfold chatAiText
  cases hg : (if env.graphAvailable = true then env.graphRaw else none) with
  | none => exact build_fallback_response_ne_nil env msg
  | some r =>
    by_cases hcr : (clean_ai_response r).isEmpty
    · simp only [hcr, if_true]
      exact build_fallback_response_ne_nil env msg
    · simp only [hcr, Bool.false_eq_true, if_false]
      exact fun h => by simp [List.isEmpty_iff, h] at hcr

/-- Full characterization of a `send_chat_message` call whose conversation id
is not a valid UUID: everything routes to the ephemeral map. -/
theorem send_chat_message_ephemeral (env : ChatEnv) (threads : ChatThreads)
    (body : RequestBody)
    (hm : requestMessage body ≠ [])
    (hc : requestConversationId body ≠ [])
    (hu : _is_valid_uuid (requestConversationId body) = false) :
    send_chat_message env threads body =
      { result := Except.ok
          { conversation_id := requestConversationId body,
            thread_id := requestConversationId body,
            user_message := requestMessage body,
            ai_response := chatAiText env (requestMessage body),
            ai_responses := [(chatAiText env (requestMessage body), env.now2)],
            timestamp := env.now2 },
        threads := threadsAppend
          (threadsAppend threads (requestConversationId body)
            { conversation_id := requestConversationId body, message_type := chrs "user",
              content := requestMessage body,
              index_order := (threadsGet threads (requestConversationId body)).length,
              created_at := env.now1 })
          (requestConversationId body)
          { conversation_id := requestConversationId body, message_type := chrs "ai",
            content := chatAiText env (requestMessage body),
            index_order := (threadsGet threads (requestConversationId body)).length + 1,
            created_at := env.now2 },
        ops := [],
        replayed := replayOf (threadsGet threads (requestConversationId body)) ++
          [LMsg.human (requestMessage body)] } := by
  have hmE : (requestMessage body).isEmpty = false := by simp [List.isEmpty_iff, hm]
  have hcE : (requestConversationId body).isEmpty = false := by simp [List.isEmpty_iff, hc]
  have hai : (chatAiText env (requestMessage body)).isEmpty = false := by
    simp [List.isEmpty_iff, chatAiText_ne_nil]
  simp only [send_chat_message, hmE, hcE, hu, hai, Bool.false_eq_true, if_false,
    Bool.true_eq_false, and_false, false_and, and_self, not_false_eq_true, if_true]
  rfl

/-- C7: a syntactically invalid UUID conversation id routes entirely to the
in-process ephemeral map: the call attempts no durable operation, appends
the user message and the reply under the literal id string with the next two
sequential `index_order` values, and a further call with the same id replays
exactly that extended history (so it sees the first call's messages). -/
theorem c7_ephemeral_routing_and_continuity (env : ChatEnv) (threads : ChatThreads)
    (body : RequestBody)
    (hm : requestMessage body ≠ [])
    (hc : requestConversationId body ≠ [])
    (hu : _is_valid_uuid (requestConversationId body) = false) :
    (send_chat_message env threads body).ops = [] ∧
    (send_chat_message env threads body).replayed =
      replayOf (threadsGet threads (requestConversationId body)) ++
        [LMsg.human (requestMessage body)] ∧
    (∃ resp, (send_chat_message env threads body).result = Except.ok resp ∧
      threadsGet (send_chat_message env threads body).threads (requestConversationId body) =
        threadsGet threads (requestConversationId body) ++
          [{ conversation_id := requestConversationId body, message_type := chrs "user",
             content := requestMessage body,
             index_order := (threadsGet threads (requestConversationId body)).length,
             created_at := env.now1 },
           { conversation_id := requestConversationId body, message_type := chrs "ai",
             content := resp.ai_response,
             index_order := (threadsGet threads (requestConversationId body)).length + 1,
             created_at := env.now2 }]) ∧
    (∀ (env2 : ChatEnv) (body2 : RequestBody),
      requestMessage body2 ≠ [] →
      requestConversationId body2 = requestConversationId body →
      (send_chat_message env2 (send_chat_message env threads body).threads body2).replayed =
        replayOf (threadsGet (send_chat_message env threads body).threads
            (requestConversationId body)) ++
          [LMsg.human (requestMessage body2)]) := by
  rw [send_chat_message_ephemeral env threads body hm hc hu]
  refine ⟨rfl, rfl, ?_, ?_⟩
  · refine ⟨_, rfl, ?_⟩
    rw [threadsGet_threadsAppend_same, threadsGet_threadsAppend_same]
    simp
  · intro env2 body2 hm2 hc2
    have hc2ne : requestConversationId body2 ≠ [] := hc2 ▸ hc
    have hu2 : _is_valid_uuid (requestConversationId body2) = false := hc2 ▸ hu
    rw [send_chat_message_ephemeral env2 _ body2 hm2 hc2ne hu2, hc2]

/-- C7 witness: the routing conclusion at the concrete id `not-a-uuid`. -/
theorem c7_witness :
    (send_chat_message c4Env0 ([] : List (List Char × List StoredMsg)) c4Body0).ops = [] :=
  (c7_ephemeral_routing_and_continuity c4Env0 [] c4Body0 (by decide) (by decide)
    (by decide)).1

/-- An empty (or whitespace-only) message is rejected with the 400 before any
effect. -/
theorem send_chat_message_empty_message (env : ChatEnv) (threads : ChatThreads)
    (body : RequestBody) (h : requestMessage body = []) :
    send_chat_message env threads body =
      { result := Except.error ⟨400, chrs "Message cannot be empty"⟩,
        threads := threads, ops := [], replayed := [] } := by
  have hE : (requestMessage body).isEmpty = true := by simp [List.isEmpty_iff, h]
  simp only [send_chat_message, hE, if_true]

/-- A missing conversation identifier is rejected with the 400 before any
effect. -/
theorem send_chat_message_missing_id (env : ChatEnv) (threads : ChatThreads)
    (body : RequestBody) (hm : requestMessage body ≠ [])
    (h : requestConversationId body = []) :
    send_chat_message env threads body =
      { result := Except.error ⟨400, chrs "Conversation or thread identifier is required"⟩,
        threads := threads, ops := [], replayed := [] } := by
  have hmE : (requestMessage body).isEmpty = false := by simp [List.isEmpty_iff, hm]
  have hE : (requestConversationId body).isEmpty = true := by simp [List.isEmpty_iff, h]
  simp only [send_chat_message, hmE, hE, if_true, Bool.false_eq_true, if_false]

/-- The HTTP result of a valid call: always a 200 payload carrying the
chat reply, on both persistence tiers. -/
theorem send_chat_message_result (env : ChatEnv) (threads : ChatThreads)
    (body : RequestBody) (hm : requestMessage body ≠ [])
    (hc : requestConversationId body ≠ []) :
    (send_chat_message env threads body).result = Except.ok
      { conversation_id := requestConversationId body,
        thread_id := requestConversationId body,
        user_message := requestMessage body,
        ai_response := chatAiText env (requestMessage body),
        ai_responses := [(chatAiText env (requestMessage body), env.now2)],
        timestamp := env.now2 } := by
  have hmE : (requestMessage body).isEmpty = false := by simp [List.isEmpty_iff, hm]
  have hcE : (requestConversationId body).isEmpty = false := by simp [List.isEmpty_iff, hc]
  have hai : (chatAiText env (requestMessage body)).isEmpty = false := by
    simp [List.isEmpty_iff, chatAiText_ne_nil]
  by_cases hu : _is_valid_uuid (requestConversationId body)
  · simp only [send_chat_message, hmE, hcE, hu, hai, Bool.false_eq_true, if_false,
      Bool.true_eq_false, if_true, true_and]
    simp
  · rw [send_chat_message_ephemeral env threads body hm hc (by simp [hu])]

/-- Every reply the handler produces is of one of the amended claim's
shapes. -/
theorem chatAiText_shape (env : ChatEnv) (msg : List Char) :
    c4AmendedReplyShape env (chatAiText env msg) := by
  have hfb : c4AmendedReplyShape env (build_fallback_response env msg) := by
    rcases build_fallback_response_shape env msg with h | ⟨docs, _, h⟩ | ⟨m, h⟩
    · exact Or.inl (Or.inr (Or.inr h))
    · exact Or.inl (Or.inr (Or.inl ⟨docs, h⟩))
    · exact Or.inr ⟨m, h⟩
  unfold chatAiText
  cases hga : env.graphAvailable with
  | false => simpa using hfb
  | true =>
    cases hgr : env.graphRaw with
    | none => simpa using hfb
    | some r =>
      simp only [if_true]
      by_cases hcr : (clean_ai_response r).isEmpty
      · simpa [hcr] using hfb
      · simp only [hcr, Bool.false_eq_true, if_false]
        exact Or.inl (Or.inl ⟨r, hga, hgr, rfl⟩)

/-- C4 amended: an empty message, then a missing identifier, are rejected
with a 400 before any effect; every other call returns 200 with a non-empty
reply that is the cleaned graph answer, a snippet fallback, the fixed
apology, or (the shape the original claim omits) a fallback embedding the
caught retrieval-error text; and the HTTP result is unchanged under every
combination of persistence outcomes (never surfaced). -/
theorem c4_amended_reply_discipline (env : ChatEnv) (threads : ChatThreads)
    (body : RequestBody) :
    (requestMessage body = [] →
      send_chat_message env threads body =
        { result := Except.error ⟨400, chrs "Message cannot be empty"⟩,
          threads := threads, ops := [], replayed := [] }) ∧
    (requestMessage body ≠ [] → requestConversationId body = [] →
      send_chat_message env threads body =
        { result := Except.error ⟨400, chrs "Conversation or thread identifier is required"⟩,
          threads := threads, ops := [], replayed := [] }) ∧
    (requestMessage body ≠ [] → requestConversationId body ≠ [] →
      ∃ resp, (send_chat_message env threads body).result = Except.ok resp ∧
        resp.ai_response ≠ [] ∧ c4AmendedReplyShape env resp.ai_response) ∧
    (∀ fr ce b1 b2 b3,
      (send_chat_message
        ({ env with fetchResult := fr, conversationExists := ce, convCheckOk := b1,
                    convWriteOk := b2, aiInsertOk := b3 } : ChatEnv) threads body).result =
      (send_chat_message env threads body).result) := by
  refine ⟨send_chat_message_empty_message env threads body,
    send_chat_message_missing_id env threads body, ?_, ?_⟩
  · intro hm hc
    exact ⟨_, send_chat_message_result env threads body hm hc,
      chatAiText_ne_nil env (requestMessage body), chatAiText_shape env (requestMessage body)⟩
  · intro fr ce b1 b2 b3
    by_cases hm : requestMessage body = []
    · rw [send_chat_message_empty_message _ threads body hm,
        send_chat_message_empty_message _ threads body hm]
    · by_cases hc : requestConversationId body = []
      · rw [send_chat_message_missing_id _ threads body hm hc,
          send_chat_message_missing_id _ threads body hm hc]
      · rw [send_chat_message_result _ threads body hm hc,
          send_chat_message_result _ threads body hm hc]
        rfl

/-- C4 counterexample: with the graph unavailable and the similarity search
raising, the call still succeeds but the reply is the guidance line plus the
caught retrieval-error text — not the graph's answer, not a snippet
fallback, and not the fixed apology, so the claim's reply enumeration is
false. -/
theorem c4_counterexample :
    (send_chat_message c4Env0 ([] : List (List Char × List StoredMsg)) c4Body0).result =
      Except.ok
        { conversation_id := chrs "not-a-uuid", thread_id := chrs "not-a-uuid",
          user_message := chrs "hello", ai_response := c4Reply0,
          ai_responses := [(c4Reply0, chrs "t2")], timestamp := chrs "t2" } ∧
    ¬ c4ClaimedReplyShape c4Env0 c4Reply0 := by
  constructor
  · rfl
  · rintro (⟨raw, hga, _, _⟩ | ⟨docs, heq⟩ | heq)
    · simp [c4Env0] at hga
    · have h2 : chrs "Error retrieving documents: " ++ chrs "boom" =
          snippetSection docs :=
        List.append_cancel_left
          (show (fallbackGuidance ++ chrs "\n\n") ++
              (chrs "Error retrieving documents: " ++ chrs "boom") =
            (fallbackGuidance ++ chrs "\n\n") ++ snippetSection docs from heq)
      have h4 : ('E' :: (chrs "rror retrieving documents: " ++ chrs "boom")) =
          ('R' :: (chrs "elevant document excerpts:\n" ++
            pyJoin [Char.ofNat 10] ((docs.take 3).map snippetOf))) := h2
      exact absurd (List.cons.inj h4).1 (by decide)
    · exact absurd heq (by decide)

/-- Lookup of the freshly inserted key. -/
theorem metaLookup_metaInsert_self (m : List (List Char × MetaVal)) (k : List Char)
    (v : MetaVal) : metaLookup (metaInsert k v m) k = some v := by
  induction m with
  | nil => simp [metaInsert, metaLookup]
  | cons kv r ih =>
    cases kv with
    | mk k0 v0 =>
      by_cases hk : k0 = k
      · simp [metaInsert, metaLookup, hk]
      · simp [metaInsert, metaLookup, hk, ih]

/-- Lookup of a different key passes the insert through. -/
theorem metaLookup_metaInsert_ne (m : List (List Char × MetaVal)) (k : List Char)
    (v : MetaVal) (k2 : List Char) (h : k2 ≠ k) :
    metaLookup (metaInsert k v m) k2 = metaLookup m k2 := by
  induction m with
  | nil => simp [metaInsert, metaLookup, Ne.symm h]
  | cons kv r ih =>
    cases kv with
    | mk k0 v0 =>
      by_cases hk : k0 = k
      · subst hk
        simp [metaInsert, metaLookup, Ne.symm h]
      · by_cases h0 : k0 = k2
        · simp [metaInsert, metaLookup, hk, h0, h]
        · simp [metaInsert, metaLookup, hk, h0, h, ih]

/-- C8: annotation preserves the chunk count; every annotated chunk carries
the shared filename, upload timestamp, file size, page count, chunk total
and joined full document text (equal across all chunks of the ingestion),
its own 0-based position as `chunk_index`, and every other metadata key
unchanged from the input chunk. -/
theorem c8_annotation_identical_metadata_except_index (filename ts : List Char)
    (size : Nat) (pages : List (List Char)) (docs : List AnnChunk) :
    (annotate_chunks filename ts size pages docs).length = docs.length ∧
    (∀ i c, (annotate_chunks filename ts size pages docs).get? i = some c →
      ∃ b, docs.get? i = some b ∧ c.content = b.content ∧
        metaLookup c.metadata (chrs "filename") = some (MetaVal.mstr filename) ∧
        metaLookup c.metadata (chrs "upload_timestamp") = some (MetaVal.mstr ts) ∧
        metaLookup c.metadata (chrs "file_size") = some (MetaVal.mnat size) ∧
        metaLookup c.metadata (chrs "page_count") = some (MetaVal.mnat pages.length) ∧
        metaLookup c.metadata (chrs "chunk_index") = some (MetaVal.mnat i) ∧
        metaLookup c.metadata (chrs "total_chunks") = some (MetaVal.mnat docs.length) ∧
        metaLookup c.metadata (chrs "full_document_text") =
          some (MetaVal.mstr (joinPages pages)) ∧
        (∀ k, k ≠ chrs "filename" → k ≠ chrs "upload_timestamp" → k ≠ chrs "file_size" →
          k ≠ chrs "page_count" → k ≠ chrs "chunk_index" → k ≠ chrs "total_chunks" →
          k ≠ chrs "full_document_text" →
          metaLookup c.metadata k = metaLookup b.metadata k)) := by
  constructor
  · simp [annotate_chunks, List.enum_length]
  · intro i c hc
    simp only [annotate_chunks, List.get?_map, List.get?_enum] at hc
    cases hb : docs.get? i with
    | none => rw [hb] at hc; exact Option.noConfusion hc
    | some b =>
      rw [hb] at hc
      simp only [Option.map_some'] at hc
      injection hc with hc
      refine ⟨b, rfl, ?_⟩
      rw [← hc]
      simp only [dictUpd, List.foldl]
      refine ⟨?_, ?_, ?_, ?_, ?_, ?_, ?_, ?_, ?_⟩
      all_goals
        first
        | exact trivial
        | rfl
        | (rw [metaLookup_metaInsert_self])
        | (rw [metaLookup_metaInsert_ne _ _ _ _ (by decide),
            metaLookup_metaInsert_self])
        | (rw [metaLookup_metaInsert_ne _ _ _ _ (by decide),
            metaLookup_metaInsert_ne _ _ _ _ (by decide), metaLookup_metaInsert_self])
        | (rw [metaLookup_metaInsert_ne _ _ _ _ (by decide),
            metaLookup_metaInsert_ne _ _ _ _ (by decide),
            metaLookup_metaInsert_ne _ _ _ _ (by decide), metaLookup_metaInsert_self])
        | (rw [metaLookup_metaInsert_ne _ _ _ _ (by decide),
            metaLookup_metaInsert_ne _ _ _ _ (by decide),
            metaLookup_metaInsert_ne _ _ _ _ (by decide),
            metaLookup_metaInsert_ne _ _ _ _ (by decide), metaLookup_metaInsert_self])
        | (rw [metaLookup_metaInsert_ne _ _ _ _ (by decide),
            metaLookup_metaInsert_ne _ _ _ _ (by decide),
            metaLookup_metaInsert_ne _ _ _ _ (by decide),
            metaLookup_metaInsert_ne _ _ _ _ (by decide),
            metaLookup_metaInsert_ne _ _ _ _ (by decide), metaLookup_metaInsert_self])
        | (rw [metaLookup_metaInsert_ne _ _ _ _ (by decide),
            metaLookup_metaInsert_ne _ _ _ _ (by decide),
            metaLookup_metaInsert_ne _ _ _ _ (by decide),
            metaLookup_metaInsert_ne _ _ _ _ (by decide),
            metaLookup_metaInsert_ne _ _ _ _ (by decide),
            metaLookup_metaInsert_ne _ _ _ _ (by decide), metaLookup_metaInsert_self])
        | (intro k h1 h2 h3 h4 h5 h6 h7
           rw [metaLookup_metaInsert_ne _ _ _ _ h7, metaLookup_metaInsert_ne _ _ _ _ h6,
             metaLookup_metaInsert_ne _ _ _ _ h5, metaLookup_metaInsert_ne _ _ _ _ h4,
             metaLookup_metaInsert_ne _ _ _ _ h3, metaLookup_metaInsert_ne _ _ _ _ h2,
             metaLookup_metaInsert_ne _ _ _ _ h1])

/-- De-overlapping the tail chunks of the spec-modelled chunker recovers the
text past the first 100 characters. -/
theorem chunk_text_drop_overlap (s : List Char) :
    ((chunk_text s).map (fun x => x.drop 100)).foldr (fun a b => a ++ b) [] =
      s.drop 100 := by
  induction s using chunk_text.induct with
  | case1 x hx =>
    have h0 : x = [] := List.isEmpty_iff.mp hx
    subst h0
    rw [chunk_text]
    simp
  | case2 x hx hlen =>
    rw [chunk_text, if_neg hx, if_pos hlen]
    simp
  | case3 x hx hlen ih =>
    rw [chunk_text, if_neg hx, if_neg hlen]
    simp only [List.map_cons, List.foldr_cons, ih]
    rw [List.drop_take, List.drop_drop]
    have h3 : List.drop 1000 x = List.drop 900 (List.drop 100 x) := by
      rw [List.drop_drop]
    rw [show (100 : Nat) + 900 = 1000 from rfl, h3, List.take_append_drop]

/-- C2 (spec-modelled chunker): chunking is empty exactly on empty input,
the de-overlapped concatenation reconstructs the input, the chunk count is
`ceil((L-100)/900)` past one window and 1 otherwise, and every chunk is the
1000-character window at its 900-character stride offset. -/
theorem c2_chunking_window_overlap_reconstruction (s : List Char) :
    (chunk_text s = [] ↔ s = []) ∧
    deOverlap (chunk_text s) = s ∧
    (1000 < s.length → (chunk_text s).length = (s.length - 100 + 899) / 900) ∧
    (1 ≤ s.length → s.length ≤ 1000 → (chunk_text s).length = 1) ∧
    (∀ i c, (chunk_text s).get? i = some c → c = (s.drop (900 * i)).take 1000) := by
  refine ⟨?_, ?_, ?_, ?_, ?_⟩
  · constructor
    · intro h
      by_cases hx : s.isEmpty
      · exact List.isEmpty_iff.mp hx
      · by_cases hlen : s.length ≤ 1000
        · rw [chunk_text, if_neg hx, if_pos hlen] at h
          exact List.noConfusion h
        · rw [chunk_text, if_neg hx, if_neg hlen] at h
          exact List.noConfusion h
    · intro h
      subst h
      rw [chunk_text]
      simp
  · induction s using chunk_text.induct with
    | case1 x hx =>
      have h0 : x = [] := List.isEmpty_iff.mp hx
      subst h0
      rw [chunk_text]
      simp [deOverlap]
    | case2 x hx hlen =>
      rw [chunk_text, if_neg hx, if_pos hlen]
      simp [deOverlap]
    | case3 x hx hlen _ =>
      rw [chunk_text, if_neg hx, if_neg hlen]
      show List.take 1000 x ++ _ = x
      rw [chunk_text_drop_overlap, List.drop_drop,
        show (100 : Nat) + 900 = 1000 from rfl, List.take_append_drop]
  · induction s using chunk_text.induct with
    | case1 x hx =>
      intro hl
      have h0 : x = [] := List.isEmpty_iff.mp hx
      subst h0
      simp at hl
    | case2 x hx hlen =>
      intro hl
      omega
    | case3 x hx hlen ih =>
      intro hl
      have hx9 : (List.drop 900 x).length = x.length - 900 := List.length_drop 900 x
      rw [chunk_text, if_neg hx, if_neg hlen]
      simp only [List.length_cons]
      by_cases h2 : 1000 < x.length - 900
      · rw [ih (by omega), hx9]
        omega
      · have hne : ¬ (List.drop 900 x).isEmpty = true := by
          simp only [List.isEmpty_iff, List.drop_eq_nil_iff_le]
          omega
        have hsing : chunk_text (List.drop 900 x) = [List.drop 900 x] := by
          rw [chunk_text, if_neg hne, if_pos (by omega : (List.drop 900 x).length ≤ 1000)]
        rw [hsing]
        simp only [List.length_singleton]
        omega
  · intro h1 h2
    have hx : ¬ s.isEmpty = true := by
      simp only [List.isEmpty_iff]
      intro h0
      rw [h0] at h1
      simp at h1
    rw [chunk_text, if_neg hx, if_pos h2]
    rfl
  · induction s using chunk_text.induct with
    | case1 x hx =>
      intro i c h
      have h0 : x = [] := List.isEmpty_iff.mp hx
      subst h0
      rw [chunk_text] at h
      simp at h
    | case2 x hx hlen =>
      intro i c h
      rw [chunk_text, if_neg hx, if_pos hlen] at h
      cases i with
      | zero =>
        simp only [List.get?] at h
        injection h with h
        rw [← h, Nat.mul_zero, List.drop_zero, List.take_of_length_le hlen]
      | succ i =>
        simp [List.get?] at h
    | case3 x hx hlen ih =>
      intro i c h
      rw [chunk_text, if_neg hx, if_neg hlen] at h
      cases i with
      | zero =>
        simp only [List.get?] at h
        injection h with h
        rw [← h, Nat.mul_zero, List.drop_zero]
      | succ i =>
        simp only [List.get?] at h
        have hc := ih i c h
        rw [hc, List.drop_drop, Nat.mul_succ, Nat.add_comm (900 * i) 900]
theorem char_ofNat_toNat (c : Char) : Char.ofNat c.toNat = c := Char.ofNat_toNat c

theorem char_valid (c : Char) :
    c.toNat < 55296 ∨ (57343 < c.toNat ∧ c.toNat < 1114112) := c.valid

theorem escStep_q (Y : List Char) : escStep (qchar :: Y) = some (qchar, Y) := rfl
theorem escStep_b (Y : List Char) : escStep (bslash :: Y) = some (bslash, Y) := rfl
theorem escStep_n (Y : List Char) : escStep ('n' :: Y) = some ('\n', Y) := rfl
theorem escStep_r (Y : List Char) : escStep ('r' :: Y) = some ('\r', Y) := rfl
theorem escStep_t (Y : List Char) : escStep ('t' :: Y) = some ('\t', Y) := rfl
theorem escStep_bs (Y : List Char) : escStep ('b' :: Y) = some (Char.ofNat 8, Y) := rfl
theorem escStep_f (Y : List Char) : escStep ('f' :: Y) = some (Char.ofNat 12, Y) := rfl

/-- A non-surrogate `\uXXXX` escape decodes to its code point. -/
theorem escStep_u {d1 d2 d3 d4 : Char} {t3 : List Char} {a b cc d : Nat}
    (h1 : hexVal d1 = some a) (h2 : hexVal d2 = some b) (h3 : hexVal d3 = some cc)
    (h4 : hexVal d4 = some d)
    (hs : ¬ (55296 ≤ 4096 * a + 256 * b + 16 * cc + d ∧ 4096 * a + 256 * b + 16 * cc + d ≤ 56319))
    (hs2 : ¬ (56320 ≤ 4096 * a + 256 * b + 16 * cc + d ∧ 4096 * a + 256 * b + 16 * cc + d ≤ 57343)) :
    escStep ('u' :: d1 :: d2 :: d3 :: d4 :: t3) =
      some (Char.ofNat (4096 * a + 256 * b + 16 * cc + d), t3) := by
  delta escStep
  conv_lhs => whnf
  rw [h1, h2, h3, h4]
  simp only []
  rw [if_neg hs, if_neg hs2]

/-- A surrogate-pair escape decodes to its supplementary code point. -/
theorem escStep_u2 {d1 d2 d3 d4 e1 e2 e3 e4 : Char} {t4 : List Char}
    {a b cc d a2 b2 c2 d2n : Nat}
    (h1 : hexVal d1 = some a) (h2 : hexVal d2 = some b) (h3 : hexVal d3 = some cc)
    (h4 : hexVal d4 = some d)
    (h5 : hexVal e1 = some a2) (h6 : hexVal e2 = some b2) (h7 : hexVal e3 = some c2)
    (h8 : hexVal e4 = some d2n)
    (hs : 55296 ≤ 4096 * a + 256 * b + 16 * cc + d ∧ 4096 * a + 256 * b + 16 * cc + d ≤ 56319)
    (hs2 : 56320 ≤ 4096 * a2 + 256 * b2 + 16 * c2 + d2n ∧
      4096 * a2 + 256 * b2 + 16 * c2 + d2n ≤ 57343) :
    escStep ('u' :: d1 :: d2 :: d3 :: d4 :: bslash :: 'u' :: e1 :: e2 :: e3 :: e4 :: t4) =
      some (Char.ofNat (65536 + (4096 * a + 256 * b + 16 * cc + d - 55296) * 1024 +
        (4096 * a2 + 256 * b2 + 16 * c2 + d2n - 56320)), t4) := by
  delta escStep
  conv_lhs => whnf
  rw [h1, h2, h3, h4]
  simp only []
  rw [if_pos hs]
  rw [h5, h6, h7, h8]
  simp only []
  rw [if_pos hs2]
  exact if_pos ⟨trivial, trivial⟩

/-- Conversion of a valid code point through `Char.ofNat` keeps its value. -/
theorem char_toNat_ofNat (m : Nat) (h : Nat.isValidChar m) :
    (Char.ofNat m).toNat = m := by
  rw [Char.ofNat, dif_pos h]
  simp [Char.ofNatAux, Char.toNat, UInt32.toNat]

/-- Decoding a rendered hex digit recovers its value. -/
theorem hexVal_hexDigit (n : Nat) (h : n < 16) : hexVal (hexDigit n) = some n := by
  unfold hexDigit hexVal
  by_cases h10 : n < 10
  · rw [if_pos h10]
    rw [char_toNat_ofNat _ (Or.inl (by omega))]
    rw [if_pos (by omega : 48 ≤ 48 + n ∧ 48 + n ≤ 57)]
    simp only [Option.some.injEq]
    omega
  · rw [if_neg h10]
    rw [char_toNat_ofNat _ (Or.inl (by omega))]
    rw [if_neg (by omega : ¬ (48 ≤ 87 + n ∧ 87 + n ≤ 57)),
      if_pos (by omega : 97 ≤ 87 + n ∧ 87 + n ≤ 102)]
    simp only [Option.some.injEq]
    omega

/-- One scanner step through a backslash escape whose payload decodes. -/
theorem go_esc (f : Nat) (E Z : List Char) (ch : Char)
    (hx : escStep (E ++ Z) = some (ch, Z)) :
    parseJStringGo (f + 1) (bslash :: (E ++ Z)) =
      (parseJStringGo f Z).map (fun p => (ch :: p.1, p.2)) := by
  rw [parseJStringGo, if_neg (by decide : ¬ bslash = qchar), if_pos rfl, hx]

/-- One scanner step over an unescaped printable character. -/
theorem go_raw (f : Nat) (c : Char) (Z : List Char) (h1 : ¬ c = qchar)
    (h2 : ¬ c = bslash) (h3 : 32 ≤ c.toNat) :
    parseJStringGo (f + 1) (c :: Z) =
      (parseJStringGo f Z).map (fun p => (c :: p.1, p.2)) := by
  rw [parseJStringGo, if_neg h1, if_neg h2, if_neg (by omega : ¬ c.toNat < 32)]

/-- The escape `json.dumps` emits for a character either is the raw
printable character or is a backslash escape that decodes back to it. -/
theorem dumpsEscapeChar_spec (c : Char) (Z : List Char) :
    (dumpsEscapeChar c = [c] ∧ ¬ c = qchar ∧ ¬ c = bslash ∧ 32 ≤ c.toNat) ∨
    (∃ E, dumpsEscapeChar c = bslash :: E ∧ escStep (E ++ Z) = some (c, Z)) := by
  by_cases h1 : c = qchar
  · exact Or.inr ⟨[qchar], by rw [h1]; rfl, by rw [h1]; exact escStep_q Z⟩
  by_cases h2 : c = bslash
  · exact Or.inr ⟨[bslash], by rw [h2]; rfl, by rw [h2]; exact escStep_b Z⟩
  by_cases h3 : c = '\n'
  · exact Or.inr ⟨['n'], by rw [h3]; rfl, by rw [h3]; exact escStep_n Z⟩
  by_cases h4 : c = '\r'
  · exact Or.inr ⟨['r'], by rw [h4]; rfl, by rw [h4]; exact escStep_r Z⟩
  by_cases h5 : c = '\t'
  · exact Or.inr ⟨['t'], by rw [h5]; rfl, by rw [h5]; exact escStep_t Z⟩
  by_cases h6 : c = Char.ofNat 8
  · exact Or.inr ⟨['b'], by rw [h6]; rfl, by rw [h6]; exact escStep_bs Z⟩
  by_cases h7 : c = Char.ofNat 12
  · exact Or.inr ⟨['f'], by rw [h7]; rfl, by rw [h7]; exact escStep_f Z⟩
  by_cases h8 : 32 ≤ c.toNat ∧ c.toNat ≤ 126
  · exact Or.inl ⟨by rw [dumpsEscapeChar, if_neg h1, if_neg h2, if_neg h3, if_neg h4,
      if_neg h5, if_neg h6, if_neg h7, if_pos h8], h1, h2, h8.1⟩
  have hv := char_valid c
  by_cases h9 : c.toNat ≤ 65535
  · refine Or.inr ⟨'u' :: hex4 c.toNat, by rw [dumpsEscapeChar, if_neg h1, if_neg h2,
      if_neg h3, if_neg h4, if_neg h5, if_neg h6, if_neg h7, if_neg h8, if_pos h9], ?_⟩
    have ha := hexVal_hexDigit (c.toNat / 4096 % 16) (Nat.mod_lt _ (by omega))
    have hb := hexVal_hexDigit (c.toNat / 256 % 16) (Nat.mod_lt _ (by omega))
    have hc := hexVal_hexDigit (c.toNat / 16 % 16) (Nat.mod_lt _ (by omega))
    have hd := hexVal_hexDigit (c.toNat % 16) (Nat.mod_lt _ (by omega))
    simp only [hex4, List.cons_append, List.nil_append]
    rw [escStep_u ha hb hc hd (by omega) (by omega)]
    rw [show 4096 * (c.toNat / 4096 % 16) + 256 * (c.toNat / 256 % 16) +
        16 * (c.toNat / 16 % 16) + c.toNat % 16 = c.toNat from by omega,
      char_ofNat_toNat]
  · refine Or.inr ⟨'u' :: hex4 (55296 + (c.toNat - 65536) / 1024) ++
      bslash :: 'u' :: hex4 (56320 + (c.toNat - 65536) % 1024),
      by rw [dumpsEscapeChar, if_neg h1, if_neg h2, if_neg h3, if_neg h4, if_neg h5,
        if_neg h6, if_neg h7, if_neg h8, if_neg h9]; rfl, ?_⟩

    have ha := hexVal_hexDigit ((55296 + (c.toNat - 65536) / 1024) / 4096 % 16)
      (Nat.mod_lt _ (by omega))
    have hb := hexVal_hexDigit ((55296 + (c.toNat - 65536) / 1024) / 256 % 16)
      (Nat.mod_lt _ (by omega))
    have hc := hexVal_hexDigit ((55296 + (c.toNat - 65536) / 1024) / 16 % 16)
      (Nat.mod_lt _ (by omega))
    have hd := hexVal_hexDigit ((55296 + (c.toNat - 65536) / 1024) % 16)
      (Nat.mod_lt _ (by omega))
    have he := hexVal_hexDigit ((56320 + (c.toNat - 65536) % 1024) / 4096 % 16)
      (Nat.mod_lt _ (by omega))
    have hf := hexVal_hexDigit ((56320 + (c.toNat - 65536) % 1024) / 256 % 16)
      (Nat.mod_lt _ (by omega))
    have hg := hexVal_hexDigit ((56320 + (c.toNat - 65536) % 1024) / 16 % 16)
      (Nat.mod_lt _ (by omega))
    have hh := hexVal_hexDigit ((56320 + (c.toNat - 65536) % 1024) % 16)
      (Nat.mod_lt _ (by omega))
    have e1 : 4096 * ((55296 + (c.toNat - 65536) / 1024) / 4096 % 16) +
        256 * ((55296 + (c.toNat - 65536) / 1024) / 256 % 16) +
        16 * ((55296 + (c.toNat - 65536) / 1024) / 16 % 16) +
        (55296 + (c.toNat - 65536) / 1024) % 16 =
        55296 + (c.toNat - 65536) / 1024 := by omega
    have e2 : 4096 * ((56320 + (c.toNat - 65536) % 1024) / 4096 % 16) +
        256 * ((56320 + (c.toNat - 65536) % 1024) / 256 % 16) +
        16 * ((56320 + (c.toNat - 65536) % 1024) / 16 % 16) +
        (56320 + (c.toNat - 65536) % 1024) % 16 =
        56320 + (c.toNat - 65536) % 1024 := by omega
    simp only [hex4, List.cons_append, List.nil_append, List.append_assoc]
    rw [escStep_u2 ha hb hc hd he hf hg hh (by omega) (by omega)]
    rw [e1, e2]
    rw [show 65536 + (55296 + (c.toNat - 65536) / 1024 - 55296) * 1024 +
        (56320 + (c.toNat - 65536) % 1024 - 56320) = c.toNat from by omega,
      char_ofNat_toNat]

/-- With sufficient fuel, the scanner recovers a serialized string body. -/
theorem parseJStringGo_dumps (k : List Char) : ∀ (fuel : Nat) (rest : List Char),
    ((k.map dumpsEscapeChar).foldr (fun a b => a ++ b) [qchar] ++ rest).length ≤ fuel →
    parseJStringGo fuel ((k.map dumpsEscapeChar).foldr (fun a b => a ++ b) [qchar] ++ rest) =
      some (k, rest) := by
  induction k with
  | nil =>
    intro fuel rest hf
    simp only [List.map_nil, List.foldr_nil, List.singleton_append] at hf ⊢
    cases fuel with
    | zero => simp at hf
    | succ f => rw [parseJStringGo, if_pos rfl]
  | cons c t ih =>
    intro fuel rest hf
    simp only [List.map_cons, List.foldr_cons, List.append_assoc] at hf ⊢
    rcases dumpsEscapeChar_spec c
        ((t.map dumpsEscapeChar).foldr (fun a b => a ++ b) [qchar] ++ rest) with
      ⟨hesc, hq, hbs, h32⟩ | ⟨E, hesc, hstep⟩
    · rw [hesc] at hf ⊢
      simp only [List.length_append, List.length_cons, List.cons_append,
        List.nil_append] at hf ⊢
      cases fuel with
      | zero => omega
      | succ f =>
        rw [go_raw f c _ hq hbs h32, ih f rest (by simp only [List.length_append]; omega)]
        rfl
    · rw [hesc] at hf ⊢
      simp only [List.length_append, List.length_cons, List.cons_append] at hf ⊢
      cases fuel with
      | zero => omega
      | succ f =>
        rw [go_esc f E _ c hstep, ih f rest (by simp only [List.length_append]; omega)]
        rfl

/-- Scanning the serialized body of a string recovers the string. -/
theorem parseJString_dumps (k rest : List Char) :
    parseJString ((k.map dumpsEscapeChar).foldr (fun a b => a ++ b) [qchar] ++ rest) =
      some (k, rest) :=
  parseJStringGo_dumps k _ rest (Nat.le_refl _)
/-- Leading JSON whitespace is dropped before any token. -/
theorem dropWhile_ws_append (w : List Char) (hw : w.all jsonWs = true) (s : List Char) :
    (w ++ s).dropWhile jsonWs = s.dropWhile jsonWs := by
  induction w with
  | nil => rfl
  | cons a t ih =>
    simp only [List.all_cons, Bool.and_eq_true] at hw
    simp only [List.cons_append, List.dropWhile_cons_of_pos hw.1, ih hw.2]

theorem dropWhile_ws_cons (c : Char) (t : List Char) (hc : jsonWs c = false) :
    (c :: t).dropWhile jsonWs = c :: t :=
  List.dropWhile_cons_of_neg (by simp [hc])

/-- The serialized `null` scans back to `null`. -/
theorem vp_null : ValueParses PyJson.jnull := by
  intro f w rest hf hw hr
  match f, hf with
  | f + 1, _ =>
  show parseJValue (f + 1) (w ++ ('n' :: 'u' :: 'l' :: 'l' :: rest)) = _
  rw [parseJValue]
  rw [dropWhile_ws_append w hw, dropWhile_ws_cons _ _ (by decide)]
  simp only []
  rw [if_neg (by decide : ¬ ('n' = qchar)), if_neg (by decide : ¬ ('n' = obrace)),
    if_neg (by decide : ¬ ('n' = Char.ofNat 91)),
    show (chrs "true").isPrefixOf ('n' :: 'u' :: 'l' :: 'l' :: rest) = false from rfl,
    show (chrs "false").isPrefixOf ('n' :: 'u' :: 'l' :: 'l' :: rest) = false from rfl,
    show (chrs "null").isPrefixOf ('n' :: 'u' :: 'l' :: 'l' :: rest) = true from by
      simp [List.isPrefixOf]]
  simp only [Bool.false_eq_true, if_false, if_true]
  rfl

/-- The serialized booleans scan back to themselves. -/
theorem vp_bool (b : Bool) : ValueParses (PyJson.jbool b) := by
  intro f w rest hf hw hr
  match f, hf with
  | f + 1, _ =>
  cases b with
  | true =>
    show parseJValue (f + 1) (w ++ ('t' :: 'r' :: 'u' :: 'e' :: rest)) = _
    rw [parseJValue]
    rw [dropWhile_ws_append w hw, dropWhile_ws_cons _ _ (by decide)]
    simp only []
    rw [if_neg (by decide : ¬ ('t' = qchar)), if_neg (by decide : ¬ ('t' = obrace)),
      if_neg (by decide : ¬ ('t' = Char.ofNat 91)),
      show (chrs "true").isPrefixOf ('t' :: 'r' :: 'u' :: 'e' :: rest) = true from by
        simp [List.isPrefixOf]]
    simp only [if_true]
    rfl
  | false =>
    show parseJValue (f + 1) (w ++ ('f' :: 'a' :: 'l' :: 's' :: 'e' :: rest)) = _
    rw [parseJValue]
    rw [dropWhile_ws_append w hw, dropWhile_ws_cons _ _ (by decide)]
    simp only []
    rw [if_neg (by decide : ¬ ('f' = qchar)), if_neg (by decide : ¬ ('f' = obrace)),
      if_neg (by decide : ¬ ('f' = Char.ofNat 91)),
      show (chrs "true").isPrefixOf ('f' :: 'a' :: 'l' :: 's' :: 'e' :: rest) = false from rfl,
      show (chrs "false").isPrefixOf ('f' :: 'a' :: 'l' :: 's' :: 'e' :: rest) = true from by
        simp [List.isPrefixOf]]
    simp only [Bool.false_eq_true, if_false, if_true]
    rfl

/-- A serialized string scans back to itself. -/
theorem vp_str (s : List Char) : ValueParses (PyJson.jstr s) := by
  intro f w rest hf hw hr
  match f, hf with
  | f + 1, _ =>
  show parseJValue (f + 1) (w ++ (qchar ::
    ((s.map dumpsEscapeChar).foldr (fun a b => a ++ b) [qchar] ++ rest))) = _
  rw [parseJValue]
  rw [dropWhile_ws_append w hw, dropWhile_ws_cons _ _ (by decide)]
  simp only []
  simp only [if_true]
  rw [parseJString_dumps]
  rfl

/-- A serialized number token scans back to itself when the token is
stable. -/
theorem vp_num {tok : List Char} (h : NumTokenStable tok) :
    ValueParses (PyJson.jnum tok) := by
  intro f w rest hf hw hr
  show parseJValue f (w ++ (tok ++ rest)) = _
  rw [← List.append_assoc]
  exact h f w rest hf hw hr
/-- The array scanner folds a serialized list of strings back into the
array value, appending to the accumulator. -/
theorem parseJArr_jstrs (l : List (List Char)) : ∀ (f : Nat) (acc : List PyJson)
    (w rest : List Char) (first : Bool), w.all jsonWs = true →
    l.length + 1 ≤ f → (l = [] → first = true) →
    parseJArr f (w ++ (dumpsArr (l.map PyJson.jstr) ++ Char.ofNat 93 :: rest)) first acc =
      some (PyJson.jarr (acc.reverse ++ l.map PyJson.jstr), rest) := by
  induction l with
  | nil =>
    intro f acc w rest first hw hf hfirst
    rw [hfirst rfl]
    match f, hf with
    | f + 1, _ =>
    rw [parseJArr]
    simp only [List.map_nil, dumpsArr, List.nil_append]
    rw [dropWhile_ws_append w hw, dropWhile_ws_cons (Char.ofNat 93) rest (by decide)]
    simp only []
    rw [if_pos ⟨trivial, trivial⟩]
    simp only [List.append_nil]
  | cons s1 tail ih =>
    intro f acc w rest first hw hf hfirst
    match f, hf with
    | f + 1, hf =>
    have hf1 : 1 ≤ f := by simp at hf; omega
    cases tail with
    | nil =>
      rw [parseJArr]
      simp only [List.map_cons, List.map_nil, dumpsArr]
      rw [dropWhile_ws_append w hw]
      rw [show json_dumps (PyJson.jstr s1) ++ Char.ofNat 93 :: rest =
        qchar :: ((s1.map dumpsEscapeChar).foldr (fun a b => a ++ b) [qchar] ++
          Char.ofNat 93 :: rest) from rfl]
      rw [dropWhile_ws_cons qchar _ (by decide)]
      simp only []
      rw [if_neg (fun hh => absurd hh.1 (by decide))]
      have hv := vp_str s1 f [] (Char.ofNat 93 :: rest)
        (by simpa [vfuel] using hf1) rfl rfl
      simp only [List.nil_append, json_dumps, dumpsString, List.cons_append] at hv
      rw [hv]
      show some (PyJson.jarr (PyJson.jstr s1 :: acc).reverse, rest) =
        some (PyJson.jarr (acc.reverse ++ [PyJson.jstr s1]), rest)
      rw [List.reverse_cons]
    | cons s2 ss =>
      rw [parseJArr]
      simp only [List.map_cons, dumpsArr]
      rw [dropWhile_ws_append w hw]
      simp only [List.append_assoc, List.cons_append]
      rw [show json_dumps (PyJson.jstr s1) ++ ',' :: ' ' ::
          (dumpsArr (PyJson.jstr s2 :: ss.map PyJson.jstr) ++ Char.ofNat 93 :: rest) =
        qchar :: ((s1.map dumpsEscapeChar).foldr (fun a b => a ++ b) [qchar] ++
          ',' :: ' ' :: (dumpsArr (PyJson.jstr s2 :: ss.map PyJson.jstr) ++
            Char.ofNat 93 :: rest)) from rfl]
      rw [dropWhile_ws_cons qchar _ (by decide)]
      simp only []
      rw [if_neg (fun hh => absurd hh.1 (by decide))]
      have hv := vp_str s1 f [] (',' :: ' ' ::
        (dumpsArr (PyJson.jstr s2 :: ss.map PyJson.jstr) ++ Char.ofNat 93 :: rest))
        (by simpa [vfuel] using hf1) rfl rfl
      simp only [List.nil_append, json_dumps, dumpsString, List.cons_append] at hv
      rw [hv]
      show parseJArr f (' ' :: (dumpsArr (PyJson.jstr s2 :: ss.map PyJson.jstr) ++
        Char.ofNat 93 :: rest)) false (PyJson.jstr s1 :: acc) =
        some (PyJson.jarr (acc.reverse ++ PyJson.jstr s1 :: PyJson.jstr s2 ::
          ss.map PyJson.jstr), rest)
      have hrec := ih f (PyJson.jstr s1 :: acc) [' '] rest false (by decide)
        (by simp at hf ⊢; omega) (fun hcon => absurd hcon (by simp))
      simp only [List.singleton_append, List.map_cons] at hrec
      rw [hrec]
      simp only [List.reverse_cons, List.map_cons, List.append_assoc,
        List.singleton_append]
/-- A serialized array of strings scans back to itself. -/
theorem vp_arr_jstrs (l : List (List Char)) : ValueParses (PyJson.jarr (l.map PyJson.jstr)) := by
  intro f w rest hf hw hr
  have hf2 : l.length + 2 ≤ f := by simpa [vfuel] using hf
  match f, hf2 with
  | f + 1, hf2 =>
  show parseJValue (f + 1) (w ++ ((Char.ofNat 91 :: dumpsArr (l.map PyJson.jstr) ++
    [Char.ofNat 93]) ++ rest)) = _
  rw [parseJValue]
  simp only [List.cons_append, List.append_assoc, List.singleton_append]
  rw [dropWhile_ws_append w hw, dropWhile_ws_cons (Char.ofNat 91) _ (by decide)]
  simp only []
  rw [if_neg (by decide : ¬ (Char.ofNat 91 = qchar)),
    if_neg (by decide : ¬ (Char.ofNat 91 = obrace)), if_pos trivial]
  have h := parseJArr_jstrs l f [] [] rest true rfl (by omega) (fun _ => rfl)
  simpa using h

/-- Optional string fields serialize to parse-stable values. -/
theorem vp_optStr (x : Option (List Char)) : ValueParses (optStrJson x) := by
  cases x with
  | none => exact vp_null
  | some a => exact vp_str a

/-- The optional budget field serializes to a parse-stable value when its
token is stable. -/
theorem vp_optNum {x : Option (List Char)} (h : budgetStable x) :
    ValueParses (optNumJson x) := by
  cases x with
  | none => exact vp_null
  | some tok => exact vp_num (h tok rfl)

/-- The optional assumptions field serializes to a parse-stable value. -/
theorem vp_optArr (x : Option (List (List Char))) : ValueParses (optArrJson x) := by
  cases x with
  | none => exact vp_null
  | some l => exact vp_arr_jstrs l

/-- Inserting a fresh key appends the pair. -/
theorem dictInsert_fresh (k : List Char) (v : PyJson) : ∀ acc,
    (∀ kv0, kv0 ∈ acc → kv0.1 ≠ k) → dictInsert k v acc = acc ++ [(k, v)]
  | [], _ => rfl
  | (k0, v0) :: r, h => by
    rw [dictInsert, if_neg (h (k0, v0) (List.mem_cons_self _ _)),
      dictInsert_fresh k v r (fun kv0 hm => h kv0 (List.mem_cons_of_mem _ hm))]
    rfl
/-- The object scanner folds serialized members back into the object value,
appending to the accumulator when every key is fresh. -/
theorem parseJObj_dumps (l : List (List Char × PyJson)) : ∀ (f : Nat)
    (acc : List (List Char × PyJson)) (w rest : List Char) (first : Bool),
    w.all jsonWs = true → objBound l ≤ f → (l = [] → first = true) →
    (∀ kv, kv ∈ l → ValueParses kv.2) →
    (∀ kv, kv ∈ l → ∀ kv0, kv0 ∈ acc → kv0.1 ≠ kv.1) →
    List.Pairwise (fun a b => a.1 ≠ b.1) l →
    parseJObj f (w ++ (dumpsObj l ++ cbrace :: rest)) first acc =
      some (PyJson.jobj (acc ++ l), rest) := by
  induction l with
  | nil =>
    intro f acc w rest first hw hf hfirst _ _ _
    rw [hfirst rfl]
    match f, hf with
    | f + 1, _ =>
    rw [parseJObj]
    simp only [dumpsObj, List.nil_append]
    rw [dropWhile_ws_append w hw, dropWhile_ws_cons cbrace rest (by decide)]
    simp only []
    rw [if_pos ⟨trivial, trivial⟩]
    simp only [List.append_nil]
  | cons kv tail ih =>
    intro f acc w rest first hw hf hfirst hvals hfresh hpair
    obtain ⟨k, v⟩ := kv
    cases f with
    | zero => exfalso; simp [objBound] at hf
    | succ f =>
    have hfv : vfuel v + 2 + objBound tail ≤ f + 1 := by simpa [objBound] using hf
    have hob1 : 1 ≤ objBound tail := by
      cases tail with
      | nil => simp [objBound]
      | cons a b => simp [objBound]; omega
    cases tail with
    | nil =>
      rw [parseJObj]
      simp only [dumpsObj, dumpsString, List.cons_append, List.append_assoc]
      rw [dropWhile_ws_append w hw]
      rw [dropWhile_ws_cons qchar _ (by decide)]
      simp only []
      rw [if_neg (fun hh => absurd hh.1 (by decide))]
      rw [if_pos trivial]
      rw [parseJString_dumps]
      show (match parseJValue f (' ' :: (json_dumps v ++ cbrace :: rest)) with
        | none => none
        | some (v2, r4) =>
          match List.dropWhile jsonWs r4 with
          | ',' :: r6 => parseJObj f r6 false (dictInsert k v2 acc)
          | d :: r7 => if d = cbrace then some (PyJson.jobj (dictInsert k v2 acc), r7) else none
          | [] => none) = some (PyJson.jobj (acc ++ [(k, v)]), rest)
      have hv2 := hvals (k, v) (by simp) f [' '] (cbrace :: rest)
        (show vfuel v ≤ f by simp [objBound] at hfv; omega) rfl rfl
      simp only [List.singleton_append] at hv2
      rw [hv2]
      show some (PyJson.jobj (dictInsert k v acc), rest) = _
      rw [dictInsert_fresh k v acc (fun kv0 hm => hfresh (k, v) (by simp) kv0 hm)]
    | cons kv2 ts =>
      rw [parseJObj]
      simp only [dumpsObj, dumpsString, List.cons_append, List.append_assoc]
      rw [dropWhile_ws_append w hw]
      rw [dropWhile_ws_cons qchar _ (by decide)]
      simp only []
      rw [if_neg (fun hh => absurd hh.1 (by decide))]
      rw [if_pos trivial]
      rw [parseJString_dumps]
      show (match parseJValue f (' ' :: (json_dumps v ++
          ',' :: ' ' :: (dumpsObj (kv2 :: ts) ++ cbrace :: rest))) with
        | none => none
        | some (v2, r4) =>
          match List.dropWhile jsonWs r4 with
          | ',' :: r6 => parseJObj f r6 false (dictInsert k v2 acc)
          | d :: r7 => if d = cbrace then some (PyJson.jobj (dictInsert k v2 acc), r7) else none
          | [] => none) = some (PyJson.jobj (acc ++ (k, v) :: kv2 :: ts), rest)
      have hv2 := hvals (k, v) (by simp) f [' ']
        (',' :: ' ' :: (dumpsObj (kv2 :: ts) ++ cbrace :: rest))
        (show vfuel v ≤ f by simp [objBound] at hfv; omega) rfl rfl
      simp only [List.singleton_append] at hv2
      rw [hv2]
      show parseJObj f (' ' :: (dumpsObj (kv2 :: ts) ++ cbrace :: rest)) false
        (dictInsert k v acc) = some (PyJson.jobj (acc ++ (k, v) :: kv2 :: ts), rest)
      rw [dictInsert_fresh k v acc (fun kv0 hm => hfresh (k, v) (by simp) kv0 hm)]
      have hrec := ih f (acc ++ [(k, v)]) [' '] rest false rfl
        (show objBound (kv2 :: ts) ≤ f by simp [objBound] at hfv ⊢; omega)
        (fun hcon => absurd hcon (by simp))
        (fun kv hm => hvals kv (List.mem_cons_of_mem _ hm))
        (fun kv hm kv0 hm0 => by
          rcases List.mem_append.mp hm0 with h | h
          · exact hfresh kv (List.mem_cons_of_mem _ hm) kv0 h
          · have hk0 : kv0 = (k, v) := by simpa using h
            subst hk0
            exact (List.pairwise_cons.mp hpair).1 kv hm)
        (List.pairwise_cons.mp hpair).2
      simp only [List.singleton_append] at hrec
      rw [hrec]
      simp only [List.append_assoc, List.singleton_append]
/-- A serialized string array has at least one character per element. -/
theorem dumpsArr_jstr_len (l : List (List Char)) :
    l.length ≤ (dumpsArr (l.map PyJson.jstr)).length := by
  induction l with
  | nil => simp [dumpsArr]
  | cons s tail ih =>
    cases tail with
    | nil => simp [dumpsArr, json_dumps, dumpsString]
    | cons s2 ss =>
      simp only [List.map_cons, dumpsArr, List.length_cons, List.length_append,
        json_dumps, dumpsString] at ih ⊢
      omega

/-- Each field value needs no more fuel than its serialized length plus
one. -/
theorem vfuel_le_dumps_len (v : PyJson) (h : ∀ a, v = PyJson.jarr a → ∃ s : List (List Char), a = s.map PyJson.jstr) :
    vfuel v ≤ (json_dumps v).length + 1 := by
  cases v with
  | jarr a =>
    obtain ⟨s, hs⟩ := h a rfl
    subst hs
    have := dumpsArr_jstr_len s
    simp only [vfuel, json_dumps, List.length_cons, List.length_append, List.length_map]
    simp at this ⊢
    omega
  | jnull => simp [vfuel, json_dumps]
  | jbool b => cases b <;> simp [vfuel, json_dumps]
  | jnum tok => simp [vfuel, json_dumps]
  | jstr s => simp [vfuel, json_dumps]
  | jobj o => simp [vfuel, json_dumps]

/-- The object scanner fuel bound is covered by twice the serialized
length. -/
theorem objBound_le_len (l : List (List Char × PyJson))
    (hv : ∀ kv, kv ∈ l → vfuel kv.2 ≤ (json_dumps kv.2).length + 1) :
    objBound l ≤ 2 * (dumpsObj l).length + 3 := by
  induction l with
  | nil => simp [objBound, dumpsObj]
  | cons kv tail ih =>
    obtain ⟨k, v⟩ := kv
    have hv1 := hv (k, v) (by simp)
    simp only [] at hv1
    cases tail with
    | nil =>
      simp only [objBound, dumpsObj, List.length_append, List.length_cons,
        dumpsString]
      simp [objBound]
      omega
    | cons kv2 ts =>
      have ih2 := ih (fun kv hm => hv kv (List.mem_cons_of_mem _ hm))
      simp only [objBound, dumpsObj, List.length_append, List.length_cons,
        dumpsString] at ih2 ⊢
      simp at ih2 ⊢
      omega
/-- Every field value of a `GeneratedProjectDetails` dictionary is
parse-stable (the budget token by hypothesis). -/
theorem gpd_vals_parse (p : GeneratedProjectDetails) (hb : budgetStable p.budget_estimate) :
    ∀ kv, kv ∈ gpdFields p → ValueParses kv.2 := by
  intro kv hm
  simp only [gpdFields, List.mem_cons, List.not_mem_nil, or_false] at hm
  rcases hm with h | h | h | h | h | h | h | h | h | h <;> subst h
  · exact vp_str p.name
  · exact vp_str p.description
  · exact vp_optStr p.address
  · exact vp_optStr p.start_date
  · exact vp_optStr p.end_date
  · exact vp_optNum hb
  · exact vp_str p.budget_currency
  · exact vp_optArr p.assumptions
  · exact vp_optStr p.confidence
  · exact vp_optStr p.additional_notes

/-- Every field value is an array only in the string-array shape. -/
theorem gpd_vfuel_le (p : GeneratedProjectDetails) :
    ∀ kv, kv ∈ gpdFields p → vfuel kv.2 ≤ (json_dumps kv.2).length + 1 := by
  intro kv hm
  apply vfuel_le_dumps_len
  intro a ha
  simp only [gpdFields, List.mem_cons, List.not_mem_nil, or_false] at hm
  rcases hm with h | h | h | h | h | h | h | h | h | h <;> subst h <;>
    simp only [] at ha
  · exact absurd ha (by simp)
  · exact absurd ha (by simp)
  · cases hx : p.address <;> rw [hx] at ha <;> simp [optStrJson] at ha
  · cases hx : p.start_date <;> rw [hx] at ha <;> simp [optStrJson] at ha
  · cases hx : p.end_date <;> rw [hx] at ha <;> simp [optStrJson] at ha
  · cases hx : p.budget_estimate <;> rw [hx] at ha <;> simp [optNumJson] at ha
  · exact absurd ha (by simp)
  · cases hx : p.assumptions with
    | none => rw [hx] at ha; simp [optArrJson] at ha
    | some l =>
      rw [hx] at ha
      simp only [optArrJson, PyJson.jarr.injEq] at ha
      exact ⟨l, ha.symm⟩
  · cases hx : p.confidence <;> rw [hx] at ha <;> simp [optStrJson] at ha
  · cases hx : p.additional_notes <;> rw [hx] at ha <;> simp [optStrJson] at ha

/-- The ten model field names are pairwise distinct. -/
theorem gpd_keys_pairwise (p : GeneratedProjectDetails) :
    List.Pairwise (fun a b => a.1 ≠ b.1) (gpdFields p) := by
  simp [gpdFields, List.pairwise_cons]
  and_intros <;> decide
/-- With any sufficient fuel, the serialized object scans back whole. -/
theorem parseJValue_gpdDumps (p : GeneratedProjectDetails)
    (hb : budgetStable p.budget_estimate) (F : Nat)
    (hF : objBound (gpdFields p) ≤ F) :
    parseJValue (F + 1) (gpdDumps p) = some (gpdJson p, []) := by
  rw [show gpdDumps p =
    obrace :: (dumpsObj (gpdFields p) ++ cbrace :: ([] : List Char)) from rfl]
  rw [parseJValue]
  rw [dropWhile_ws_cons obrace _ (by decide)]
  simp only []
  rw [if_neg (by decide : ¬ (obrace = qchar)), if_pos trivial]
  have h := parseJObj_dumps (gpdFields p) F [] [] [] true rfl hF (fun _ => rfl)
    (gpd_vals_parse p hb) (fun kv _ kv0 hm0 => absurd hm0 (List.not_mem_nil _))
    (gpd_keys_pairwise p)
  simpa [gpdJson] using h

/-- `json.loads` recovers the serialized dictionary of a
`GeneratedProjectDetails` exactly. -/
theorem json_loads_gpdDumps (p : GeneratedProjectDetails)
    (hb : budgetStable p.budget_estimate) :
    json_loads (gpdDumps p) = some (gpdJson p) := by
  have hfuel : objBound (gpdFields p) ≤ 2 * (gpdDumps p).length + 7 := by
    have h1 := objBound_le_len (gpdFields p) (gpd_vfuel_le p)
    have h2 : (gpdDumps p).length = (dumpsObj (gpdFields p)).length + 2 := by
      simp [gpdDumps, gpdJson, json_dumps]
    omega
  have hparse := parseJValue_gpdDumps p hb (2 * (gpdDumps p).length + 7) hfuel
  rw [json_loads]
  rw [show 2 * (gpdDumps p).length + 8 = (2 * (gpdDumps p).length + 7) + 1 from rfl]
  rw [hparse]
  rfl
/-- Without a backtick fence anywhere, the fence regex never matches. -/
theorem fenceSearch_none (s : List Char) (h : hasSeq (chrs "```") s = false) :
    fenceSearch s = none := by
  induction s with
  | nil => rfl
  | cons c t ih =>
    rw [hasSeq, Bool.or_eq_false_iff] at h
    rw [fenceSearch, fenceAt, if_neg (by simp [h.1]), ih h.2]

/-- The last closing brace of `l ++ [cbrace]` is at index `l.length`. -/
theorem lastIdxOf_append_last (ch : Char) (l : List Char) :
    lastIdxOf ch (l ++ [ch]) = some l.length := by
  induction l with
  | nil => simp [lastIdxOf]
  | cons c t ih =>
    rw [List.cons_append, lastIdxOf, ih]
    rfl

/-- The greedy brace regex on a whole serialized object returns the whole
text. -/
theorem braceSearch_whole (inner : List Char) :
    braceSearch (obrace :: (inner ++ [cbrace])) = some (obrace :: (inner ++ [cbrace])) := by
  rw [braceSearch]
  rw [show List.dropWhile (fun c => decide (c ≠ obrace)) (obrace :: (inner ++ [cbrace])) =
    obrace :: (inner ++ [cbrace]) from List.dropWhile_cons_of_neg (by simp)]
  simp only []
  rw [lastIdxOf_append_last]
  simp only []
  rw [show inner.length + 1 = (inner ++ [cbrace]).length by simp]
  rw [List.take_length]
/-- A digit is not Python whitespace. -/
theorem dig_not_space (c : Char) (h : isDig c = true) : pySpace c = false := by
  simp only [isDig, Bool.and_eq_true, decide_eq_true_eq] at h
  simp only [pySpace, Bool.or_eq_false_iff, decide_eq_false_iff_not]
  refine ⟨⟨⟨⟨⟨?_, ?_⟩, ?_⟩, ?_⟩, ?_⟩, ?_⟩ <;> (rintro rfl; revert h; decide)

/-- rstrip keeps a string whose last character is not whitespace. -/
theorem pyRStrip_concat (l : List Char) (z : Char) (hz : pySpace z = false) :
    pyRStrip (l ++ [z]) = l ++ [z] := by
  rw [pyRStrip, List.reverse_append]
  simp only [List.reverse_cons, List.reverse_nil, List.nil_append, List.singleton_append]
  rw [List.dropWhile_cons_of_neg (by simp [hz])]
  simp

/-- Shape facts of an ISO-shaped date string: strip-invariant, ten
characters, non-empty. -/
theorem iso_facts (d : List Char) (h : isIsoShape d = true) :
    pyStrip d = d ∧ d.length = 10 ∧ d.isEmpty = false := by
  rcases d with _ | ⟨a, _ | ⟨b, _ | ⟨c, _ | ⟨d2, _ | ⟨e, _ | ⟨f, _ | ⟨g, _ | ⟨h2, _ |
    ⟨i, _ | ⟨j, _ | ⟨z, tail⟩⟩⟩⟩⟩⟩⟩⟩⟩⟩⟩
  all_goals first
  | (exfalso; simp [isIsoShape] at h; done)
  | skip
  simp only [isIsoShape, Bool.and_eq_true, decide_eq_true_eq] at h
  have ha : pySpace a = false := dig_not_space a h.1.1.1.1.1.1.1.1.1
  have hj : pySpace j = false := dig_not_space j h.2
  refine ⟨?_, rfl, rfl⟩
  rw [pyStrip, pyLStrip, List.dropWhile_cons_of_neg (by simp [ha])]
  rw [show a :: b :: c :: d2 :: e :: f :: g :: h2 :: i :: j :: ([] : List Char) =
    [a, b, c, d2, e, f, g, h2, i] ++ [j] from rfl]
  exact pyRStrip_concat _ j hj

/-- The date validator keeps an ISO-shaped string unchanged. -/
theorem normalize_date_iso (d : List Char) (h : isIsoShape d = true) :
    _normalize_date (PyJson.jstr d) = some d := by
  obtain ⟨hstrip, hlen, hne⟩ := iso_facts d h
  rw [_normalize_date]
  simp only [hstrip, hne, Bool.false_eq_true, if_false]
  rw [if_neg ?hplace, if_pos h]
  case hplace =>
    rintro (hc | hc | hc | hc) <;>
      (have hlc := congrArg List.length hc;
       simp [pyLower, hlen, show (chrs "unknown").length = 7 from rfl,
         show (chrs "n/a").length = 3 from rfl, show (chrs "tbd").length = 3 from rfl,
         show (chrs "unspecified").length = 11 from rfl] at hlc)
/-- Items that are non-empty and strip-invariant pass the assumptions
filter unchanged. -/
theorem filterMap_strip_id (m : List (List Char))
    (hm : ∀ x, x ∈ m → x.isEmpty = false ∧ pyStrip x = x) :
    (m.map PyJson.jstr).filterMap (fun it =>
      let s := pyStrip (pyStrOf it)
      if s.isEmpty then none else some s) = m := by
  induction m with
  | nil => rfl
  | cons x tail ih =>
    have hx := hm x (by simp)
    simp only [List.map_cons, List.filterMap_cons, pyStrOf, hx.2, hx.1,
      Bool.false_eq_true, if_false]
    exact congrArg (List.cons x) (ih (fun a ha => hm a (by simp [ha])))

/-- The assumptions validator keeps a normalized list unchanged. -/
theorem coerce_assumptions_round (l : List (List Char))
    (h : assumptionsNormalized (some l) = true) :
    _coerce_assumptions (PyJson.jarr (l.map PyJson.jstr)) = some l := by
  simp only [assumptionsNormalized, Bool.and_eq_true, List.all_eq_true] at h
  have hitems : ∀ x, x ∈ l → x.isEmpty = false ∧ pyStrip x = x := by
    intro x hxm
    have hx := h.2 x hxm
    simp only [Bool.and_eq_true, decide_eq_true_eq] at hx
    exact ⟨by cases hi : x.isEmpty with
      | false => rfl
      | true => exact absurd hi (by simpa using hx.1), hx.2⟩
  have hne : l.isEmpty = false := by
    cases hi : l.isEmpty with
    | false => rfl
    | true => exact absurd hi (by simpa using h.1)
  rw [_coerce_assumptions]
  simp only [filterMap_strip_id l hitems, hne, Bool.false_eq_true, if_false]
/-- Rebuilding a `GeneratedProjectDetails` from its own field dictionary
returns it unchanged, under the normalization invariants the validators
guarantee. -/
theorem mk_gpd_round (p : GeneratedProjectDetails)
    (hsd : isoOpt p.start_date = true) (hed : isoOpt p.end_date = true)
    (hasm : assumptionsNormalized p.assumptions = true) :
    mkGeneratedProjectDetails (gpdFields p) = Except.ok p := by
  have l1 : lookupField (gpdFields p) "name" = some (PyJson.jstr p.name) := by
    simp only [gpdFields, lookupField]
    rw [if_pos trivial]
  have l2 : lookupField (gpdFields p) "description" = some (PyJson.jstr p.description) := by
    simp only [gpdFields, lookupField]
    rw [if_neg (by decide), if_pos trivial]
  have l3 : lookupField (gpdFields p) "address" = some (optStrJson p.address) := by
    simp only [gpdFields, lookupField]
    rw [if_neg (by decide), if_neg (by decide), if_pos trivial]
  have l4 : lookupField (gpdFields p) "start_date" = some (optStrJson p.start_date) := by
    simp only [gpdFields, lookupField]
    rw [if_neg (by decide), if_neg (by decide), if_neg (by decide), if_pos trivial]
  have l5 : lookupField (gpdFields p) "end_date" = some (optStrJson p.end_date) := by
    simp only [gpdFields, lookupField]
    rw [if_neg (by decide), if_neg (by decide), if_neg (by decide), if_neg (by decide), if_pos trivial]
  have l6 : lookupField (gpdFields p) "budget_estimate" = some (optNumJson p.budget_estimate) := by
    simp only [gpdFields, lookupField]
    rw [if_neg (by decide), if_neg (by decide), if_neg (by decide), if_neg (by decide), if_neg (by decide), if_pos trivial]
  have l7 : lookupField (gpdFields p) "budget_currency" = some (PyJson.jstr p.budget_currency) := by
    simp only [gpdFields, lookupField]
    rw [if_neg (by decide), if_neg (by decide), if_neg (by decide), if_neg (by decide), if_neg (by decide), if_neg (by decide), if_pos trivial]
  have l8 : lookupField (gpdFields p) "assumptions" = some (optArrJson p.assumptions) := by
    simp only [gpdFields, lookupField]
    rw [if_neg (by decide), if_neg (by decide), if_neg (by decide), if_neg (by decide), if_neg (by decide), if_neg (by decide), if_neg (by decide), if_pos trivial]
  have l9 : lookupField (gpdFields p) "confidence" = some (optStrJson p.confidence) := by
    simp only [gpdFields, lookupField]
    rw [if_neg (by decide), if_neg (by decide), if_neg (by decide), if_neg (by decide), if_neg (by decide), if_neg (by decide), if_neg (by decide), if_neg (by decide), if_pos trivial]
  have l10 : lookupField (gpdFields p) "additional_notes" = some (optStrJson p.additional_notes) := by
    simp only [gpdFields, lookupField]
    rw [if_neg (by decide), if_neg (by decide), if_neg (by decide), if_neg (by decide), if_neg (by decide), if_neg (by decide), if_neg (by decide), if_neg (by decide), if_neg (by decide), if_pos trivial]
  have haddr : pydanticOptStr (some (optStrJson p.address)) = Except.ok p.address := by
    cases p.address <;> rfl
  have hconf : pydanticOptStr (some (optStrJson p.confidence)) =
      Except.ok p.confidence := by
    cases p.confidence <;> rfl
  have hnotes : pydanticOptStr (some (optStrJson p.additional_notes)) =
      Except.ok p.additional_notes := by
    cases p.additional_notes <;> rfl
  have hsdv : _normalize_date (optStrJson p.start_date) = p.start_date := by
    cases hc : p.start_date with
    | none => rfl
    | some d => exact normalize_date_iso d (by simpa [isoOpt, hc] using hsd)
  have hedv : _normalize_date (optStrJson p.end_date) = p.end_date := by
    cases hc : p.end_date with
    | none => rfl
    | some d => exact normalize_date_iso d (by simpa [isoOpt, hc] using hed)
  have hbe : _parse_budget (optNumJson p.budget_estimate) = p.budget_estimate := by
    cases p.budget_estimate <;> rfl
  have hasmv : _coerce_assumptions (optArrJson p.assumptions) = p.assumptions := by
    cases hc : p.assumptions with
    | none => rfl
    | some l => exact coerce_assumptions_round l (by rwa [hc] at hasm)
  rw [mkGeneratedProjectDetails]
  rw [l1, l2, l3, l4, l5, l6, l7, l8, l9, l10]
  simp only [haddr, hconf, hnotes, hsdv, hedv, hbe, hasmv, pydanticStr]
  rfl
/-- Extraction on a serialized dictionary: no fence matches, the greedy
brace span is the whole text, and it parses back to the dictionary. -/
theorem extract_gpdDumps (p : GeneratedProjectDetails)
    (hb : budgetStable p.budget_estimate)
    (hfence : hasSeq (chrs "```") (gpdDumps p) = false) :
    extract_json_block (gpdDumps p) = Except.ok (gpdJson p) := by
  rw [extract_json_block]
  rw [show (gpdDumps p).isEmpty = false from rfl]
  simp only [Bool.false_eq_true, if_false]
  rw [jsonCandidate, fenceSearch_none _ hfence]
  simp only []
  rw [show gpdDumps p = obrace :: (dumpsObj (gpdFields p) ++ [cbrace]) from rfl,
    braceSearch_whole]
  simp only []
  rw [show obrace :: (dumpsObj (gpdFields p) ++ [cbrace]) = gpdDumps p from rfl,
    json_loads_gpdDumps p hb]

/-- The full pass on a serialized `GeneratedProjectDetails` rebuilds it. -/
theorem c9_extract_round (p : GeneratedProjectDetails)
    (hsd : isoOpt p.start_date = true) (hed : isoOpt p.end_date = true)
    (hasm : assumptionsNormalized p.assumptions = true)
    (hb : budgetStable p.budget_estimate)
    (hfence : hasSeq (chrs "```") (gpdDumps p) = false) :
    extractProjectDetails (gpdDumps p) = Except.ok p := by
  rw [extractProjectDetails, extract_gpdDumps p hb hfence]
  simp only [gpdJson]
  exact mk_gpd_round p hsd hed hasm
/-- dropWhile is idempotent. -/
theorem dropWhile_idem {α : Type} (p : α → Bool) (l : List α) :
    (l.dropWhile p).dropWhile p = l.dropWhile p := by
  induction l with
  | nil => rfl
  | cons a t ih =>
    cases hpa : p a with
    | true => rw [List.dropWhile_cons_of_pos hpa, ih]
    | false =>
      rw [List.dropWhile_cons_of_neg (by simp [hpa]),
        List.dropWhile_cons_of_neg (by simp [hpa])]

/-- A list unchanged by dropWhile has a failing head. -/
theorem dropWhile_fix_head {α : Type} (p : α → Bool) (a : α) (t : List α)
    (h : (a :: t).dropWhile p = a :: t) : p a = false := by
  cases hpa : p a with
  | false => rfl
  | true =>
    rw [List.dropWhile_cons_of_pos hpa] at h
    have hsub : t.dropWhile p <:+ t := List.dropWhile_suffix p
    have hle := hsub.length_le
    rw [h] at hle
    simp at hle

/-- Python strip is idempotent. -/
theorem pyStrip_idem (s : List Char) : pyStrip (pyStrip s) = pyStrip s := by
  rw [pyStrip, pyStrip]
  have hL : pyLStrip (pyLStrip s) = pyLStrip s := dropWhile_idem pySpace s
  obtain ⟨t, ht⟩ : (pyLStrip s).reverse.dropWhile pySpace <:+ (pyLStrip s).reverse :=
    List.dropWhile_suffix _
  have hu : pyLStrip s = pyRStrip (pyLStrip s) ++ t.reverse := by
    rw [pyRStrip]
    calc pyLStrip s = (pyLStrip s).reverse.reverse := by rw [List.reverse_reverse]
    _ = (t ++ (pyLStrip s).reverse.dropWhile pySpace).reverse := by rw [ht]
    _ = ((pyLStrip s).reverse.dropWhile pySpace).reverse ++ t.reverse := by
        rw [List.reverse_append]
  have hLR : pyLStrip (pyRStrip (pyLStrip s)) = pyRStrip (pyLStrip s) := by
    cases hv : pyRStrip (pyLStrip s) with
    | nil => rfl
    | cons a r =>
      have hhead : pySpace a = false := by
        apply dropWhile_fix_head pySpace a (r ++ t.reverse)
        have : pyLStrip s = a :: (r ++ t.reverse) := by
          rw [hu, hv]; simp
        calc ((a :: (r ++ t.reverse)).dropWhile pySpace)
            = (pyLStrip s).dropWhile pySpace := by rw [this]
        _ = pyLStrip s := hL
        _ = a :: (r ++ t.reverse) := this
      exact List.dropWhile_cons_of_neg (by simp [hhead])
  have hRR : pyRStrip (pyRStrip (pyLStrip s)) = pyRStrip (pyLStrip s) := by
    rw [pyRStrip, pyRStrip]
    have hdrop : (pyLStrip s).reverse.dropWhile pySpace =
        ((pyLStrip s).reverse.dropWhile pySpace).reverse.reverse := by
      rw [List.reverse_reverse]
    rw [← hdrop, dropWhile_idem]
  rw [hLR, hRR]
/-- The date validator only ever outputs null or an ISO-shaped string. -/
theorem normalize_date_shape (v : PyJson) : isoOpt (_normalize_date v) = true := by
  cases v with
  | jstr s =>
    rw [_normalize_date]
    simp only []
    split_ifs with h1 h2 h3
    · rfl
    · rfl
    · simpa [isoOpt] using h3
    · rfl
  | jnull => rfl
  | jbool b => rfl
  | jnum t => rfl
  | jarr a => rfl
  | jobj o => rfl

/-- The assumptions validator only ever outputs null or a normalized list. -/
theorem coerce_shape (v : PyJson) :
    assumptionsNormalized (_coerce_assumptions v) = true := by
  cases v with
  | jarr items =>
    rw [_coerce_assumptions]
    simp only []
    split_ifs with h1
    · rfl
    · simp only [assumptionsNormalized, Bool.and_eq_true, List.all_eq_true]
      refine ⟨by simpa using h1, ?_⟩
      intro x hx
      obtain ⟨it, hit, hfx⟩ := List.mem_filterMap.mp hx
      split_ifs at hfx with hse
      have hxe : pyStrip (pyStrOf it) = x := Option.some.inj hfx
      subst hxe
      simp only [Bool.and_eq_true, decide_eq_true_eq]
      exact ⟨by simpa using hse, pyStrip_idem _⟩
  | jstr s =>
    rw [_coerce_assumptions]
    simp only []
    split_ifs with h1 h2 h3
    · rfl
    · rfl
    · simp only [assumptionsNormalized, Bool.and_eq_true, List.all_eq_true]
      refine ⟨by simpa using h3, ?_⟩
      intro x hx
      have hxf := List.mem_filter.mp hx
      obtain ⟨y, hy, hxy⟩ := List.mem_map.mp hxf.1
      simp only [Bool.and_eq_true, decide_eq_true_eq]
      refine ⟨by simpa using hxf.2, ?_⟩
      rw [← hxy, pyStrip_idem]
    · simp only [assumptionsNormalized, Bool.and_eq_true, List.all_eq_true]
      refine ⟨by simp, ?_⟩
      intro x hx
      have hx1 : x = pyStrip s := by simpa using hx
      subst hx1
      simp only [Bool.and_eq_true, decide_eq_true_eq]
      exact ⟨by simpa using h1, pyStrip_idem s⟩
  | jnull => rfl
  | jbool b => rfl
  | jnum t => rfl
  | jobj o => rfl
/-- Inversion of a successful `Except` bind. -/
theorem except_bind_ok {ε α β : Type} (x : Except ε α) (f : α → Except ε β) (b : β)
    (h : (x >>= f) = Except.ok b) : ∃ a, x = Except.ok a ∧ f a = Except.ok b := by
  cases x with
  | ok a => exact ⟨a, rfl, h⟩
  | error e => exact Except.noConfusion (show Except.error e = Except.ok b from h)

/-- Every object the constructor returns satisfies the date and assumptions
normalization invariants. -/
theorem mk_invariants (fields : List (List Char × PyJson)) (p : GeneratedProjectDetails)
    (h : mkGeneratedProjectDetails fields = Except.ok p) :
    isoOpt p.start_date = true ∧ isoOpt p.end_date = true ∧
      assumptionsNormalized p.assumptions = true := by
  rw [mkGeneratedProjectDetails] at h
  repeat'
    first
    | exact Except.noConfusion h
    | split at h
    | (obtain ⟨x, hx, h⟩ := except_bind_ok _ _ _ h)
    | unfold pydanticStr pydanticOptStr at h
    | simp only [] at h
  all_goals have hp := Except.ok.inj h
  all_goals subst hp
  all_goals refine ⟨?_, ?_, ?_⟩
  all_goals first
  | rfl
  | exact normalize_date_shape _
  | exact coerce_shape _
/-- Every object the extraction pass returns satisfies the normalization
invariants. -/
theorem extract_invariants (text : List Char) (p : GeneratedProjectDetails)
    (h : extractProjectDetails text = Except.ok p) :
    isoOpt p.start_date = true ∧ isoOpt p.end_date = true ∧
      assumptionsNormalized p.assumptions = true := by
  rw [extractProjectDetails] at h
  split at h
  · exact Except.noConfusion h
  · exact mk_invariants _ p h
  · exact Except.noConfusion h

/-- C9 counterexample: the pass maps `c9Input` to an object whose name
spells a backtick fence, and re-running the pass on that object's own
re-serialized JSON fails (the fence regex now matches inside the string
and captures a brace span that lacks the required fields), so the literal
idempotence claim is false. -/
theorem c9_counterexample :
    extractProjectDetails c9Input = Except.ok c9Object ∧
    extractProjectDetails (gpdDumps c9Object) =
      Except.error (chrs "field required: name") := by
  exact ⟨rfl, rfl⟩
/-- C9 corrected: the extraction-plus-normalization pass is idempotent only
away from its re-serialization trap.  Every object the pass produces
satisfies the validators' normalization invariants (ISO-shaped or absent
dates, a normalized assumptions list); and for every such object whose
budget token is scan-stable and whose re-serialized JSON contains no
backtick fence, re-running extraction and normalization on the
re-serialized text yields the identical object.  The fence proviso is
necessary: `c9_counterexample` exhibits a produced object whose
re-serialized name field spells a fence, on which the second pass fails
outright. -/
theorem c9_idempotence_amended :
    (∀ text p, extractProjectDetails text = Except.ok p →
      isoOpt p.start_date = true ∧ isoOpt p.end_date = true ∧
        assumptionsNormalized p.assumptions = true) ∧
    (∀ p : GeneratedProjectDetails, isoOpt p.start_date = true →
      isoOpt p.end_date = true → assumptionsNormalized p.assumptions = true →
      budgetStable p.budget_estimate →
      hasSeq (chrs "```") (gpdDumps p) = false →
      extractProjectDetails (gpdDumps p) = Except.ok p) :=
  ⟨extract_invariants,
    fun p hsd hed hasm hb hf => c9_extract_round p hsd hed hasm hb hf⟩
